import Mathlib

/-!
Shallow embedding of `dev/simulated_google.py` (class `SimulatedGoogle`), the
in-memory simulator of the Google Drive HTTP API used by the backup add-on's
test harness.

Modelling conventions:
* Python `str` values are embedded as `List Char` (`Str`); Python string
  methods (`split`, slicing, `startswith`, `endswith`) become the
  corresponding list operations.
* Python `dict`s with string keys are embedded as association lists with
  insertion-order semantics (`aSet` overwrites in place, appends when new),
  matching CPython's ordered dicts.
* JSON/metadata values are the closed variant `JValue`.  A Python
  `bytearray` is a mutable object shared by reference; it is embedded as an
  index (`JValue.bytesRef`) into the server state's `buffers` arena, so that
  the aliasing between an upload session's accumulating buffer and the item
  committed into the store is preserved.
* Python integers are unbounded, so sizes/offsets are `Int` (values parsed
  from `\d+` regex groups are `Nat`).
* The asyncio test instrumentation in `_uploadProgress` (`_waitOnChunk`,
  `_upload_chunk_wait`/`_upload_chunk_trigger` events, `_current_chunk`) only
  delays response delivery and is concurrency-level behaviour; the model
  corresponds to the default `_waitOnChunk = 0` (hook disabled), in which the
  handler body runs atomically.
* `generateId` is an opaque random-string capability; handlers that call it
  take the generated id as an explicit request field.
* `Time.now()` is an abstract clock, embedded as a `Nat` counter `now` in the
  server state.
-/

namespace SimGoogle

/-- A Python string, embedded as its sequence of characters. -/
abbrev Str := List Char

/-- Closed variant type for JSON/metadata values stored in items
(`dict[str, Any]` in the source).  `bytesRef` is a reference into the
state's `buffers` arena, standing for a Python `bytearray` object. -/
inductive JValue where
  | str (s : Str)
  | int (n : Int)
  | bool (b : Bool)
  | bytesRef (r : Nat)
  | arr (elems : List JValue)
  | obj (fields : List (Str × JValue))

/-- A Python dict with string keys (item metadata, request JSON bodies). -/
abbrev Dict := List (Str × JValue)

/-- `d[k]` lookup (`None` when the key is absent). -/
def aGet {β : Type} : List (Str × β) → Str → Option β
  | [], _ => none
  | (k', v) :: rest, k => if k' = k then some v else aGet rest k

/-- `k in d` membership test. -/
def aHas {β : Type} (d : List (Str × β)) (k : Str) : Bool :=
  (aGet d k).isSome

/-- `d[k] = v` assignment: overwrites in place, appends when the key is new
(CPython ordered-dict semantics). -/
def aSet {β : Type} : List (Str × β) → Str → β → List (Str × β)
  | [], k, v => [(k, v)]
  | (k', v') :: rest, k, v =>
      if k' = k then (k', v) :: rest else (k', v') :: aSet rest k v

/-- `del d[k]` deletion. -/
def aDel {β : Type} (d : List (Str × β)) (k : Str) : List (Str × β) :=
  d.filter (fun kv => kv.1 ≠ k)

/-! ### Regular-expression models

The source compiles three patterns over header/query strings:
`mimeTypeQueryPattern = ^mimeType='.*'$`, `parentsQueryPattern =
`^'.*' in parents$`, `resumeBytesPattern = ^bytes \*/\d+$`.
Python `re.match` semantics: the match is anchored at the start; `$` matches
at the very end of the string or just before a single trailing newline; `.`
matches any character except a newline (`\d` is restricted here to ASCII
digits, the only digits occurring in HTTP headers). -/

/-- Drop a single trailing newline, the positions at which Python's `$`
anchor can succeed. -/
def stripNl (s : Str) : Str :=
  if s.getLast? = some '\n' then s.dropLast else s

/-- `True` when the string has no newline, so that it can be matched by `.*`. -/
def noNl (s : Str) : Bool := !(s.contains '\n')

/-- Python slicing `s[:-n]`. -/
def strDropRight (s : Str) (n : Nat) : Str := s.take (s.length - n)

/-- `mimeTypeQueryPattern.match(query)`: the query has shape `mimeType='.*'`. -/
def mimeTypeQueryMatch (q : Str) : Bool :=
  let t := stripNl q
  "mimeType='".toList.isPrefixOf t && "'".toList.isSuffixOf t &&
    11 ≤ t.length && noNl (strDropRight (t.drop 10) 1)

/-- `parentsQueryPattern.match(query)`: the query has shape `'.*' in parents`. -/
def parentsQueryMatch (q : Str) : Bool :=
  let t := stripNl q
  "'".toList.isPrefixOf t && "' in parents".toList.isSuffixOf t &&
    13 ≤ t.length && noNl (strDropRight (t.drop 1) 12)

/-- All-ASCII-digits, nonempty: what `\d+` accepts. -/
def isDigits (s : Str) : Bool := !s.isEmpty && s.all Char.isDigit

/-- `resumeBytesPattern.match(info)`: the Content-Range header has the
status-probe shape `bytes */<digits>`. -/
def resumeBytesMatch (info : Str) : Bool :=
  let t := stripNl info
  "bytes */".toList.isPrefixOf t && isDigits (t.drop 8)

/-- Numeric value of a digit string (the integer a `\d+` group denotes). -/
def decValue (s : Str) : Nat :=
  s.foldl (fun acc c => acc * 10 + (c.toNat - 48)) 0

/-- Decompose the part of a Content-Range header after `bytes ` into the
three group strings `<a>-<b>/<c>`. -/
def rangeParts (t : Str) : Option (Str × Str × Str) :=
  match (t.drop 6).splitOn '-' with
  | [a, bc] =>
    (match bc.splitOn '/' with
     | [b, c] => some (a, b, c)
     | _ => none)
  | _ => none

/-- Modelled from the spec: `bytesPattern` is imported from `base_server`,
which is not part of this source tree.  Per the spec (§4.3), a chunk-transfer
`Content-Range` header has the form `bytes <start>-<end>/<total>`, i.e. the
pattern `^bytes \d+-\d+/\d+$`, with the same Python `$`/newline semantics as
the patterns above. -/
def bytesMatch (info : Str) : Bool :=
  let t := stripNl info
  "bytes ".toList.isPrefixOf t &&
    (match rangeParts t with
     | some (a, b, c) => isDigits a && isDigits b && isDigits c
     | none => false)

/-- Modelled from the spec: `intPattern.findall` (from `base_server`, not in
this tree) extracts the integer groups of a matching Content-Range header;
for a header matching `bytesPattern` these are `(start, end, total)`. -/
def rangeNumbers (info : Str) : Nat × Nat × Nat :=
  match rangeParts (stripNl info) with
  | some (a, b, c) => (decValue a, decValue b, decValue c)
  | none => (0, 0, 0)

/-! ### Server state -/

/-- The in-flight resumable upload session (`self._upload_info`, a dict whose
five keys are always written together by `_upload`).  The state's
`upload_info` is `none` until the first successful `_upload`. -/
structure UploadInfo where
  size : Int
  mime : Str
  item : Dict
  id : Str
  next_start : Int

/-- The mutable state of `SimulatedGoogle` relevant to the Drive data plane.
`buffers` is the arena of live `bytearray` objects (see module comment);
`now` is the abstract `Time.now()` clock; `port` is `ports.server`.
The OAuth-only fields (`_refresh_token`, client ids, auth code) are not
modelled, as no data-plane endpoint reads them. -/
structure GState where
  auth_token : Str
  port : Nat
  now : Nat
  items : List (Str × Dict)
  lostPermission : List Str
  space_available : Int
  upload_info : Option UploadInfo
  chunks : List Nat
  buffers : List (List Nat)

/-- Dereference a `bytearray` (`buffers` arena index). -/
def bufGet (bufs : List (List Nat)) (r : Nat) : List Nat := bufs.getD r []

/-- `bytearray.extend`: append bytes to the referenced buffer in place. -/
def bufExtend (bufs : List (List Nat)) (r : Nat) (bs : List Nat) :
    List (List Nat) :=
  bufs.set r (bufGet bufs r ++ bs)

/-- Responses a data-plane handler can produce.  `unauthorized`, `notFound`,
`badRequest` are the raised aiohttp exceptions; `forbidden` is the 403
response with body `{"error": {"errors": [{"reason": "forbidden"}]}}`;
`quotaExceeded` is the 400 response with body
`{"error": {"errors": [{"reason": "storageQuotaExceeded"}]}}`;
`json` is a 200 `json_response`; `emptyOk` is a bare 200 `Response()` with
an optional `Location` header; `resume` is a 308 `Response` with an optional
`Range` header; `media` is a `serve_bytes` payload; `serverError` marks
requests on which the Python handler would raise an uncaught exception. -/
inductive GResponse where
  | unauthorized
  | notFound
  | badRequest
  | serverError
  | forbidden
  | quotaExceeded
  | json (body : JValue)
  | emptyOk (location : Option Str)
  | resume (range : Option Str)
  | media (content : List Nat)

/-! ### Shared helpers (`_checkDriveHeaders`, `filter_fields`, `parseFields`,
`formatItem`) -/

/-- `_checkDriveHeaders`: the request's `Authorization` header (absent read
as `""`) must equal `"Bearer " + self._auth_token` exactly. -/
def checkDriveHeaders (s : GState) (authorization : Str) : Bool :=
  authorization = "Bearer ".toList ++ s.auth_token

/-- `filter_fields(item, fields)`: keep only the requested fields that are
present, in requested order. -/
def filter_fields (item : Dict) (fields : List Str) : Dict :=
  fields.foldl
    (fun ret field =>
      match aGet item field with
      | some v => aSet ret field v
      | none => ret)
    []

/-- The loop body of `parseFields`: strip a leading `files(` from a field,
else a trailing `)` (note: `elif`, so a lone `files(f)` field only has its
prefix stripped). -/
def fieldStrip (field : Str) : Str :=
  if "files(".toList.isPrefixOf field then field.drop 6
  else if ")".toList.isSuffixOf field then strDropRight field 1
  else field

/-- `parseFields(source)`: split on commas, apply `fieldStrip` to each
field. -/
def parseFields (source : Str) : List Str :=
  (source.splitOn ',').map fieldStrip

/-- Modelled from the spec: `timeToRfc3339String` lives in `base_server`
(not in this tree) and renders the current time as a timestamp string; the
model renders the abstract clock injectively. -/
def timeToRfc3339String (t : Nat) : Str := "ts:".toList ++ (toString t).toList

/-- `formatItem(base, id)`: stamp `capabilities`, `trashed=false`, `id` and
`modifiedTime` (current time) onto the metadata dict. -/
def formatItem (base : Dict) (id : Str) (now : Nat) : Dict :=
  aSet
    (aSet
      (aSet
        (aSet base "capabilities".toList
          (JValue.obj
            [("canAddChildren".toList, JValue.bool true),
             ("canListChildren".toList, JValue.bool true),
             ("canDeleteChildren".toList, JValue.bool true)]))
        "trashed".toList (JValue.bool false))
      "id".toList (JValue.str id))
    "modifiedTime".toList (JValue.str (timeToRfc3339String now))

/-! ### Requests

One structure per endpoint, carrying exactly the parts of the HTTP request
the handler reads.  `authorization` is the `Authorization` header (absent
read as `""` by `headers.get`).  `newId` fields carry the value the opaque
`generateId` capability returns during that request. -/

structure GetRequest where
  id : Str
  authorization : Str
  alt : Option Str
  fields : Option Str

structure UpdateRequest where
  id : Str
  authorization : Str
  body : Dict

structure DeleteRequest where
  id : Str
  authorization : Str

structure QueryRequest where
  authorization : Str
  q : Option Str
  fields : Option Str

structure CreateRequest where
  authorization : Str
  body : Dict
  newId : Str

structure StartUploadRequest where
  authorization : Str
  uploadType : Option Str
  contentType : Option Str
  contentLength : Option Int
  metadata : Dict
  newId : Str

structure ChunkRequest where
  id : Str
  authorization : Str
  contentLength : Int
  contentRange : Str
  body : List Nat

/-! ### Handlers -/

/-- `_get`. -/
def getHandler (s : GState) (r : GetRequest) : GResponse × GState :=
  if ¬ checkDriveHeaders s r.authorization then (.unauthorized, s)
  else if ¬ aHas s.items r.id then (.notFound, s)
  else if r.id ∈ s.lostPermission then (.forbidden, s)
  else
    let item := (aGet s.items r.id).getD []
    if r.alt.getD "metadata".toList = "media".toList then
      match aGet item "bytes".toList with
      | none => (.badRequest, s)
      | some (JValue.bytesRef ref) => (.media (bufGet s.buffers ref), s)
      | some _ => (.serverError, s)
    else
      (.json (JValue.obj
        (filter_fields item ((r.fields.getD "id".toList).splitOn ','))), s)

/-- The per-key merge loop of `_update`: a key whose current value is a dict
is deep-merged one level (`dict.update`), any other key is overwritten.
`none` when the new value for a dict-valued key is not itself a dict, in
which case `dict.update` raises. -/
def applyUpdate : Dict → Dict → Option Dict
  | item, [] => some item
  | item, (k, v) :: rest =>
      match aGet item k with
      | some (JValue.obj o) =>
          match v with
          | JValue.obj kvs =>
              applyUpdate
                (aSet item k
                  (JValue.obj (kvs.foldl (fun t kv => aSet t kv.1 kv.2) o)))
                rest
          | _ => none
      | _ => applyUpdate (aSet item k v) rest

/-- `_update`.  (On an unknown id the source `return`s the `HTTPNotFound`
class instead of raising it; either way the observable effect is a not-found
failure with no mutation.) -/
def updateHandler (s : GState) (r : UpdateRequest) : GResponse × GState :=
  if ¬ checkDriveHeaders s r.authorization then (.unauthorized, s)
  else if ¬ aHas s.items r.id then (.notFound, s)
  else
    match applyUpdate ((aGet s.items r.id).getD []) r.body with
    | none => (.serverError, s)
    | some item2 => (.emptyOk none, { s with items := aSet s.items r.id item2 })

/-- `_delete`. -/
def deleteHandler (s : GState) (r : DeleteRequest) : GResponse × GState :=
  if ¬ checkDriveHeaders s r.authorization then (.unauthorized, s)
  else if ¬ aHas s.items r.id then (.notFound, s)
  else (.emptyOk none, { s with items := aDel s.items r.id })

/-- `item.get('mimeType', '') == mimeType` (Python `==` between a non-string
value and a string is `False`; an absent `mimeType` compares as `''`). -/
def itemMimeMatches (item : Dict) (mime : Str) : Bool :=
  match aGet item "mimeType".toList with
  | some (JValue.str v) => v == mime
  | some _ => false
  | none => ([] : Str) == mime

/-- `parent in item.get('parents', [])`.  The model covers JSON-array
`parents` values (the only shape the simulator's clients send); a
non-string element never equals the string `parent`. -/
def itemParentsContain (item : Dict) (parent : Str) : Bool :=
  match aGet item "parents".toList with
  | some (JValue.arr l) =>
      l.any fun v =>
        match v with
        | JValue.str p => p == parent
        | _ => false
  | _ => false

/-- `_query`. -/
def queryHandler (s : GState) (r : QueryRequest) : GResponse × GState :=
  if ¬ checkDriveHeaders s r.authorization then (.unauthorized, s)
  else
    let q := r.q.getD []
    let fields := parseFields (r.fields.getD "id".toList)
    if mimeTypeQueryMatch q then
      let mime := strDropRight (q.drop 10) 1
      (.json (JValue.obj [("files".toList,
         JValue.arr ((s.items.filter fun kv => itemMimeMatches kv.2 mime).map
           fun kv => JValue.obj (filter_fields kv.2 fields)))]), s)
    else if parentsQueryMatch q then
      let parent := strDropRight (q.drop 1) 12
      if ¬ aHas s.items parent then (.notFound, s)
      else if parent ∈ s.lostPermission then (.forbidden, s)
      else
        (.json (JValue.obj [("files".toList,
           JValue.arr
             ((s.items.filter fun kv => itemParentsContain kv.2 parent).map
               fun kv => JValue.obj (filter_fields kv.2 fields)))]), s)
    else if q.length = 0 then
      (.json (JValue.obj [("files".toList,
         JValue.arr (s.items.map fun kv =>
           JValue.obj (filter_fields kv.2 fields)))]), s)
    else (.badRequest, s)

/-- `_create` (`item['id']` is the freshly generated id). -/
def createHandler (s : GState) (r : CreateRequest) : GResponse × GState :=
  if ¬ checkDriveHeaders s r.authorization then (.unauthorized, s)
  else
    (.json (JValue.obj [("id".toList, JValue.str r.newId)]),
     { s with items := aSet s.items r.newId (formatItem r.body r.newId s.now) })

/-- `item.get('size', 0)` as summed by `_upload`'s quota computation
(Python `bool` is an `int`: `True` counts as 1). -/
def itemSize (item : Dict) : Int :=
  match aGet item "size".toList with
  | some (JValue.int n) => n
  | some (JValue.bool b) => if b then 1 else 0
  | _ => 0

/-- Whether every stored `size` value can participate in Python's `+`
against an `int`; a string/list/dict/bytearray `size` would raise. -/
def sizesWellTyped (items : List (Str × Dict)) : Bool :=
  items.all fun kv =>
    match aGet kv.2 "size".toList with
    | some (JValue.int _) => true
    | some (JValue.bool _) => true
    | none => true
    | _ => false

/-- The parents-validation loop of `_upload`: first failure wins; a
non-string parent is never a key of the (string-keyed) store, so the
`parent not in self.items` branch raises `NotFound` for it. -/
def parentsCheck (s : GState) : List JValue → Option GResponse
  | [] => none
  | JValue.str p :: rest =>
      if ¬ aHas s.items p then some GResponse.notFound
      else if p ∈ s.lostPermission then some GResponse.forbidden
      else parentsCheck s rest
  | _ :: _ => some GResponse.notFound

/-- `_upload` (start a resumable upload session).  Note that
`metadata['bytes'] = bytearray(); metadata['size'] = size` mutate the same
dict that `formatItem` returned and that the session holds as its `item`,
so the session item carries the (fresh, empty) shared buffer.  The model
covers JSON-array `parents` metadata (the only shape the simulator's
clients send). -/
def uploadHandler (s : GState) (r : StartUploadRequest) : GResponse × GState :=
  if ¬ checkDriveHeaders s r.authorization then (.unauthorized, s)
  else if r.uploadType ≠ some "resumable".toList then (.badRequest, s)
  else
    match r.contentType with
    | none => (.badRequest, s)
    | some mime =>
      let size := r.contentLength.getD (-1)
      if size < 0 then (.badRequest, s)
      else if ¬ sizesWellTyped s.items then (.serverError, s)
      else if (s.items.map fun kv => itemSize kv.2).sum + size >
          s.space_available then (.quotaExceeded, s)
      else
        match
          (match aGet r.metadata "parents".toList with
           | some (JValue.arr ps) => parentsCheck s ps
           | none => none
           | some _ => some GResponse.serverError) with
        | some resp => (resp, s)
        | none =>
          let ref := s.buffers.length
          let item :=
            aSet (aSet (formatItem r.metadata r.newId s.now)
                "bytes".toList (JValue.bytesRef ref))
              "size".toList (JValue.int size)
          (.emptyOk (some ("http://localhost:".toList ++
              (toString s.port).toList ++
              "/upload/drive/v3/files/progress/".toList ++ r.newId)),
           { s with
               upload_info := some
                 { size := size, mime := mime, item := item, id := r.newId,
                   next_start := 0 },
               buffers := s.buffers ++ [[]] })

/-- `_uploadProgress` (upload a chunk or probe upload status).  The
`_waitOnChunk` pause hook is disabled (see module comment).  When no
session was ever started, `self._upload_info.get('id', "")` is `""`: a
nonempty `{id}` then mismatches (`BadRequest`), and the impossible empty id
would hit a `KeyError` on `'next_start'`/`'size'` in the branches that read
them. -/
def uploadProgressHandler (s : GState) (r : ChunkRequest) :
    GResponse × GState :=
  if ¬ checkDriveHeaders s r.authorization then (.unauthorized, s)
  else
    match s.upload_info with
    | none =>
        if ([] : Str) ≠ r.id then (.badRequest, s)
        else if resumeBytesMatch r.contentRange then (.serverError, s)
        else if ¬ bytesMatch r.contentRange then (.badRequest, s)
        else (.serverError, s)
    | some u =>
        if u.id ≠ r.id then (.badRequest, s)
        else if resumeBytesMatch r.contentRange then
          (.resume
            (if u.next_start ≠ 0 then
              some ("bytes=0-".toList ++ (toString (u.next_start - 1)).toList)
             else none), s)
        else if ¬ bytesMatch r.contentRange then (.badRequest, s)
        else
          let nums := rangeNumbers r.contentRange
          let start : Nat := nums.1
          let endv : Nat := nums.2.1
          let total : Nat := nums.2.2
          if (total : Int) ≠ u.size then (.badRequest, s)
          else if (start : Int) ≠ u.next_start then (.badRequest, s)
          else if ¬ ((endv : Int) = (total : Int) - 1 ∨
              r.contentLength % (256 * 1024) = 0) then (.badRequest, s)
          else if (endv : Int) > (total : Int) - 1 then (.badRequest, s)
          else if (r.body.length : Int) ≠ r.contentLength then (.badRequest, s)
          else if (r.body.length : Int) ≠ (endv : Int) - (start : Int) + 1 then
            (.badRequest, s)
          else
            match aGet u.item "bytes".toList with
            | some (JValue.bytesRef ref) =>
                let bufs := bufExtend s.buffers ref r.body
                if ((bufGet bufs ref).length : Int) ≠ (endv : Int) + 1 then
                  (.badRequest, { s with buffers := bufs })
                else
                  let s1 := { s with buffers := bufs,
                                     chunks := s.chunks ++ [r.body.length] }
                  if (endv : Int) = (total : Int) - 1 then
                    (.json (JValue.obj [("id".toList, JValue.str u.id)]),
                     { s1 with items := aSet s1.items u.id u.item })
                  else
                    (.resume (some ("bytes=0-".toList ++
                        (toString endv).toList)),
                     { s1 with
                         upload_info :=
                           some ({ u with next_start := (endv : Int) + 1 }) })
            | _ => (.serverError, s)

/-! ### Upload-session run machinery -/

/-- Apply a list of chunk requests in order, collecting the responses. -/
def runChunks (s : GState) : List ChunkRequest → List GResponse × GState
  | [] => ([], s)
  | r :: rest =>
      let p := uploadProgressHandler s r
      let q := runChunks p.2 rest
      (p.1 :: q.1, q.2)

/-- The receiving-phase well-formedness of an in-flight session, as
`_upload` establishes it and every non-final chunk re-establishes it: the
session's item holds a live buffer reference whose content length equals
`next_start`. -/
def Receiving (s : GState) (u : UploadInfo) (ref : Nat) : Prop :=
  s.upload_info = some u ∧
  aGet u.item "bytes".toList = some (JValue.bytesRef ref) ∧
  ref < s.buffers.length ∧
  ((bufGet s.buffers ref).length : Int) = u.next_start

/-- Strictly sequential chunk delivery for declared size `S` from offset
`pos` (the claim's hypotheses, amended so that only the final chunk may
reach offset `S-1`): each request is addressed to the session with the
right bearer token, its Content-Range parses as `bytes pos-end/S` at the
session's current offset, its body length is `end - pos + 1` and matches
`Content-Length`; every non-final chunk is 256 KiB-aligned and ends
strictly before `S-1`; the final chunk ends at `S-1`. -/
def SeqChunks (tok sid : Str) (S : Nat) : Nat → List ChunkRequest → Prop
  | pos, [] => pos = S
  | pos, r :: rest =>
      r.authorization = tok ∧ r.id = sid ∧
      bytesMatch r.contentRange = true ∧
      ∃ endv : Nat,
        rangeNumbers r.contentRange = (pos, endv, S) ∧
        r.body.length = endv + 1 - pos ∧
        pos ≤ endv + 1 ∧
        r.contentLength = (r.body.length : Int) ∧
        (rest = [] → endv = S - 1) ∧
        (rest ≠ [] → endv + 1 < S ∧ r.body.length % (256 * 1024) = 0) ∧
        SeqChunks tok sid S (endv + 1) rest

/-- The byte buffer of a stored item, read through the `bytearray` arena
(what `_get` with `alt=media` would serve). -/
def storedBytes (s : GState) (id : Str) : List Nat :=
  match aGet ((aGet s.items id).getD []) "bytes".toList with
  | some (JValue.bytesRef r) => bufGet s.buffers r
  | _ => []

/-! ### Concrete fixtures shared by witnesses and counterexamples -/

/-- A server state as `SimulatedGoogle.__init__` plus `generateNewAccessToken`
would leave it: empty store, no session, a known token. -/
def exState : GState :=
  { auth_token := "tok".toList, port := 1, now := 0, items := [],
    lostPermission := [], space_available := 100, upload_info := none,
    chunks := [], buffers := [] }

/-- The matching `Authorization` header for `exState`. -/
def exAuth : Str := "Bearer tok".toList

def exGetReq : GetRequest :=
  { id := "A".toList, authorization := "bad".toList, alt := none,
    fields := none }

def exUpdReq : UpdateRequest :=
  { id := "A".toList, authorization := "bad".toList, body := [] }

def exDelReq : DeleteRequest :=
  { id := "A".toList, authorization := "bad".toList }

def exQryReq : QueryRequest :=
  { authorization := "bad".toList, q := none, fields := none }

def exCreReq : CreateRequest :=
  { authorization := "bad".toList, body := [], newId := "A".toList }

def exStartReq : StartUploadRequest :=
  { authorization := "bad".toList, uploadType := some "resumable".toList,
    contentType := some "text/plain".toList, contentLength := some 1,
    metadata := [], newId := "A".toList }

def exChunkReq : ChunkRequest :=
  { id := "A".toList, authorization := "bad".toList, contentLength := 1,
    contentRange := "bytes 0-0/1".toList, body := [7] }

/-- A correctly authorized `_upload` request declaring one byte. -/
def exStartOk : StartUploadRequest :=
  { authorization := exAuth, uploadType := some "resumable".toList,
    contentType := some "text/plain".toList, contentLength := some 1,
    metadata := [], newId := "XYZ".toList }

/-- `exState` after `exStartOk` started a session. -/
def exSessState : GState := (uploadHandler exState exStartOk).2

/-- The session record `exStartOk` creates. -/
def exSessInfo : UploadInfo :=
  { size := 1, mime := "text/plain".toList,
    item := aSet (aSet (formatItem [] "XYZ".toList 0) "bytes".toList
      (JValue.bytesRef 0)) "size".toList (JValue.int 1),
    id := "XYZ".toList, next_start := 0 }

/-- A chunk addressed to the session of `exSessState` whose start offset 1
differs from the session's `next_start = 0`. -/
def exWrongStartChunk : ChunkRequest :=
  { id := "XYZ".toList, authorization := exAuth, contentLength := 1,
    contentRange := "bytes 1-1/1".toList, body := [7] }

/-- A state whose blocklist holds the id `B`, which is not in the store. -/
def exBlockState : GState := { exState with lostPermission := ["B".toList] }

def exBlockGetReq : GetRequest :=
  { id := "B".toList, authorization := exAuth, alt := none, fields := none }

def exBlockQryReq : QueryRequest :=
  { authorization := exAuth, q := some "'B' in parents".toList,
    fields := none }

/-- The same state with `B` present in the store: used to witness the
amended C6. -/
def exBlockState2 : GState :=
  { exBlockState with items := [("B".toList, [])] }

/-- A store holding one item that has no `mimeType` field. -/
def exNoMimeState : GState :=
  { exState with items := [("A".toList, [("id".toList,
      JValue.str "A".toList)])] }

def exEmptyMimeQry : QueryRequest :=
  { authorization := exAuth, q := some "mimeType=''".toList, fields := none }

/-- Witness for C7 (amended) on a store with one `text/plain` item and one
item of a different mime type. -/
def exMimeState : GState :=
  { exState with items :=
      [("A".toList, [("id".toList, JValue.str "A".toList),
        ("mimeType".toList, JValue.str "text/plain".toList)]),
       ("B".toList, [("id".toList, JValue.str "B".toList),
        ("mimeType".toList, JValue.str "application/json".toList)])] }

def exMimeQry : QueryRequest :=
  { authorization := exAuth, q := some "mimeType='text/plain'".toList,
    fields := none }

/-- `exState` after `_create` stored an item `A` at time 0. -/
def exCreated : GState :=
  (createHandler exState
    { authorization := exAuth,
      body := [("name".toList, JValue.str "n".toList)],
      newId := "A".toList }).2

/-- The same state observed later (the clock moved to 5). -/
def exCreatedLater : GState := { exCreated with now := 5 }

/-- A patch of the `name` field of `A` (no `modifiedTime` key). -/
def exUpdNameReq : UpdateRequest :=
  { id := "A".toList, authorization := exAuth,
    body := [("name".toList, JValue.str "m".toList)] }

/-- Append `)` to the last element of a list of fields: the shape of the
comma-split of `files(f1,...,fn)` after its first element. -/
def decorLast : List Str → List Str
  | [] => []
  | [a] => [a ++ ")".toList]
  | a :: b :: t => a :: decorLast (b :: t)

/-- An `_upload` request whose declared 101 bytes exceed `exState`'s 100
bytes of available space. -/
def exOverReq : StartUploadRequest :=
  { authorization := exAuth, uploadType := some "resumable".toList,
    contentType := some "text/plain".toList, contentLength := some 101,
    metadata := [], newId := "BIG".toList }

/-- An `_upload` request whose declared 100 bytes exactly fit. -/
def exFitReq : StartUploadRequest :=
  { authorization := exAuth, uploadType := some "resumable".toList,
    contentType := some "text/plain".toList, contentLength := some 100,
    metadata := [], newId := "FIT".toList }

/-- The one-byte final chunk of the `exSessState` session. -/
def exFinalChunk : ChunkRequest :=
  { id := "XYZ".toList, authorization := exAuth, contentLength := 1,
    contentRange := "bytes 0-0/1".toList, body := [7] }

/-- `exSessState` after `exFinalChunk` committed the upload. -/
def exCommitState : GState :=
  (uploadProgressHandler exSessState exFinalChunk).2

/-- A replay of the final chunk (same offsets, different payload byte). -/
def exReplayChunk : ChunkRequest :=
  { id := "XYZ".toList, authorization := exAuth, contentLength := 1,
    contentRange := "bytes 0-0/1".toList, body := [9] }

/-- A state with the source's default 100 MB of space, for uploads of a
full 256 KiB chunk. -/
def exBigState : GState := { exState with space_available := 1024 * 1024 * 100 }

/-- Start an upload of exactly one alignment unit (256 KiB). -/
def exStart256 : StartUploadRequest :=
  { authorization := exAuth, uploadType := some "resumable".toList,
    contentType := some "text/plain".toList, contentLength := some 262144,
    metadata := [], newId := "XYZ".toList }

/-- `exBigState` after `exStart256` started a session. -/
def exSess256 : GState := (uploadHandler exBigState exStart256).2

/-- The session record `exStart256` creates. -/
def exSess256Info : UploadInfo :=
  { size := 262144, mime := "text/plain".toList,
    item := aSet (aSet (formatItem [] "XYZ".toList 0) "bytes".toList
      (JValue.bytesRef 0)) "size".toList (JValue.int 262144),
    id := "XYZ".toList, next_start := 0 }

/-- A single 256 KiB chunk covering the whole `exSess256` upload. -/
def exChunk256 : ChunkRequest :=
  { id := "XYZ".toList, authorization := exAuth, contentLength := 262144,
    contentRange := "bytes 0-262143/262144".toList,
    body := List.replicate 262144 0 }

/-- A status probe addressed to the session of `exSessState`. -/
def exProbeChunk : ChunkRequest :=
  { id := "XYZ".toList, authorization := exAuth, contentLength := 0,
    contentRange := "bytes */1".toList, body := [] }

/-! ### Association-list and buffer lemmas -/

theorem aGet_aSet_self {β : Type} (d : List (Str × β)) (k : Str) (v : β) :
    aGet (aSet d k v) k = some v := by
  induction d with
  | nil => simp [aSet, aGet]
  | cons kv rest ih =>
      obtain ⟨k', v'⟩ := kv
      by_cases h : k' = k
      · simp [aSet, aGet, h]
      · simp [aSet, aGet, h, ih]

theorem aGet_aSet_ne {β : Type} (d : List (Str × β)) (k k' : Str) (v : β)
    (h : k ≠ k') : aGet (aSet d k v) k' = aGet d k' := by
  induction d with
  | nil => simp [aSet, aGet, h]
  | cons kv rest ih =>
      obtain ⟨k₀, v₀⟩ := kv
      by_cases h0 : k₀ = k
      · subst h0
        simp [aSet, aGet, h]
      · simp [aSet, aGet, h0, ih]

theorem bufGet_set_self (bufs : List (List Nat)) (r : Nat) (v : List Nat)
    (h : r < bufs.length) : bufGet (bufs.set r v) r = v := by
  simp [bufGet, List.getD_eq_getElem?_getD, List.getElem?_set_self h]

theorem bufGet_extend_self (bufs : List (List Nat)) (r : Nat) (bs : List Nat)
    (h : r < bufs.length) :
    bufGet (bufExtend bufs r bs) r = bufGet bufs r ++ bs :=
  bufGet_set_self bufs r _ h

theorem length_bufExtend (bufs : List (List Nat)) (r : Nat) (bs : List Nat) :
    (bufExtend bufs r bs).length = bufs.length :=
  List.length_set bufs r _

/-! ### Claim theorems -/

theorem checkDriveHeaders_false {s : GState} {a : Str}
    (h : a ≠ "Bearer ".toList ++ s.auth_token) :
    checkDriveHeaders s a = false := by
  simp only [checkDriveHeaders, decide_eq_false_iff_not]
  exact h

theorem checkDriveHeaders_true {s : GState} {a : Str}
    (h : a = "Bearer ".toList ++ s.auth_token) :
    checkDriveHeaders s a = true := by
  simp only [checkDriveHeaders, decide_eq_true_eq]
  exact h

/-- C8: every data-plane endpoint (`_get`, `_update`, `_delete`, `_query`,
`_create`, `_upload`, `_uploadProgress`) rejects a request whose
`Authorization` header is not exactly `"Bearer "` followed by the current
access token with `Unauthorized`, and the entire server state is unchanged:
the header check is a precondition applied before any mutation. -/
theorem auth_is_precondition (s : GState)
    (rg : GetRequest) (ru : UpdateRequest) (rd : DeleteRequest)
    (rq : QueryRequest) (rc : CreateRequest) (rs : StartUploadRequest)
    (rp : ChunkRequest)
    (hg : rg.authorization ≠ "Bearer ".toList ++ s.auth_token)
    (hu : ru.authorization ≠ "Bearer ".toList ++ s.auth_token)
    (hd : rd.authorization ≠ "Bearer ".toList ++ s.auth_token)
    (hq : rq.authorization ≠ "Bearer ".toList ++ s.auth_token)
    (hc : rc.authorization ≠ "Bearer ".toList ++ s.auth_token)
    (hs : rs.authorization ≠ "Bearer ".toList ++ s.auth_token)
    (hp : rp.authorization ≠ "Bearer ".toList ++ s.auth_token) :
    getHandler s rg = (.unauthorized, s) ∧
    updateHandler s ru = (.unauthorized, s) ∧
    deleteHandler s rd = (.unauthorized, s) ∧
    queryHandler s rq = (.unauthorized, s) ∧
    createHandler s rc = (.unauthorized, s) ∧
    uploadHandler s rs = (.unauthorized, s) ∧
    uploadProgressHandler s rp = (.unauthorized, s) := by
  refine ⟨?_, ?_, ?_, ?_, ?_, ?_, ?_⟩ <;>
    simp [getHandler, updateHandler, deleteHandler, queryHandler,
      createHandler, uploadHandler, uploadProgressHandler,
      checkDriveHeaders_false hg, checkDriveHeaders_false hu,
      checkDriveHeaders_false hd, checkDriveHeaders_false hq,
      checkDriveHeaders_false hc, checkDriveHeaders_false hs,
      checkDriveHeaders_false hp]

/-- Recover a string from the two pieces `splitOn` produced. -/
theorem splitOn_two {xs a b : Str} {c : Char}
    (h : xs.splitOn c = [a, b]) : xs = a ++ c :: b := by
  have hr := List.intercalate_splitOn xs c
  rw [h] at hr
  simpa [List.intercalate] using hr.symm

/-- Unpack a successful `rangeParts` decomposition into the shape of the
header's tail. -/
theorem rangeParts_eq {t a b c : Str} (h : rangeParts t = some (a, b, c)) :
    t.drop 6 = a ++ '-' :: (b ++ '/' :: c) := by
  unfold rangeParts at h
  split at h
  next a' bc heq =>
    split at h
    next b' c' heq2 =>
      cases h
      rw [splitOn_two heq, splitOn_two heq2]
    next => exact absurd h (by simp)
  next => exact absurd h (by simp)

/-- Unpack `bytesMatch`: the header (modulo a trailing newline) starts with
`bytes ` followed by three digit groups. -/
theorem bytesMatch_elim {t : Str} (h : bytesMatch t = true) :
    "bytes ".toList.isPrefixOf (stripNl t) = true ∧
    ∃ a b c, rangeParts (stripNl t) = some (a, b, c) ∧
      isDigits a = true ∧ isDigits b = true ∧ isDigits c = true := by
  simp only [bytesMatch, Bool.and_eq_true] at h
  obtain ⟨hpre, hm⟩ := h
  refine ⟨hpre, ?_⟩
  split at hm
  next a b c heq =>
    simp only [Bool.and_eq_true] at hm
    exact ⟨a, b, c, heq, hm.1.1, hm.1.2, hm.2⟩
  next => exact absurd hm (by simp)

/-- A chunk-transfer Content-Range header (`bytes <start>-<end>/<total>`)
never matches the status-probe pattern (`bytes */<total>`): the character
after `bytes ` is a digit, not `*`. -/
theorem bytesMatch_not_probe {t : Str} (h : bytesMatch t = true) :
    resumeBytesMatch t = false := by
  obtain ⟨-, a, b, c, hparts, ha, -, -⟩ := bytesMatch_elim h
  simp only [resumeBytesMatch]
  rw [Bool.eq_false_iff]
  intro hprobe
  rw [Bool.and_eq_true, List.isPrefixOf_iff_prefix] at hprobe
  obtain ⟨⟨v, hv⟩, -⟩ := hprobe
  have hdrop : List.drop 6 (stripNl t) = '*' :: '/' :: v := by
    rw [← hv]
    rw [show ("bytes */".toList ++ v = "bytes ".toList ++ ('*' :: '/' :: v))
      from rfl]
    exact List.drop_left' rfl
  have hcons : a ++ '-' :: (b ++ '/' :: c) = '*' :: '/' :: v := by
    rw [← rangeParts_eq hparts, hdrop]
  cases a with
  | nil => simp [isDigits] at ha
  | cons x xs =>
      have hx : x = '*' := by
        have := congrArg (fun l => l.head?) hcons
        simpa using this
      subst hx
      simp [isDigits] at ha

/-- C2: while a session is in flight, a chunk-transfer request whose
Content-Range `start` differs from the session's `next_start` fails with
`BadRequest` and leaves the entire server state (accumulated buffer,
`next_start`, Item Store) unchanged: the start check precedes every
mutation. -/
theorem chunk_wrong_start_rejected (s : GState) (u : UploadInfo)
    (r : ChunkRequest)
    (hsess : s.upload_info = some u)
    (hauth : r.authorization = "Bearer ".toList ++ s.auth_token)
    (hid : u.id = r.id)
    (hrange : bytesMatch r.contentRange = true)
    (hstart : ((rangeNumbers r.contentRange).1 : Int) ≠ u.next_start) :
    uploadProgressHandler s r = (.badRequest, s) := by
  have hnp := bytesMatch_not_probe hrange
  by_cases htot : ((rangeNumbers r.contentRange).2.2 : Int) = u.size
  · simp [uploadProgressHandler, checkDriveHeaders_true hauth, hsess, hnp,
      hrange, hid, htot, hstart]
  · simp [uploadProgressHandler, checkDriveHeaders_true hauth, hsess, hnp,
      hrange, hid, htot]

/-- C5: while a session is in flight, a status-probe request
(`Content-Range: bytes */<total>`) returns 308 without touching any state;
its `Range` header is `bytes=0-(next_start-1)` when bytes have been
received and is omitted when `next_start = 0`; the request body is never
consumed (the response does not depend on it). -/
theorem status_probe_behavior (s : GState) (u : UploadInfo) (r : ChunkRequest)
    (hsess : s.upload_info = some u)
    (hauth : r.authorization = "Bearer ".toList ++ s.auth_token)
    (hid : u.id = r.id)
    (hprobe : resumeBytesMatch r.contentRange = true) :
    (u.next_start = 0 → uploadProgressHandler s r = (.resume none, s)) ∧
    (0 < u.next_start → uploadProgressHandler s r =
      (.resume (some ("bytes=0-".toList ++
        (toString (u.next_start - 1)).toList)), s)) ∧
    (∀ body', uploadProgressHandler s { r with body := body' } =
      uploadProgressHandler s r) := by
  refine ⟨?_, ?_, ?_⟩
  · intro h0
    simp [uploadProgressHandler, checkDriveHeaders_true hauth, hsess, hid,
      hprobe, h0]
  · intro hpos
    simp [uploadProgressHandler, checkDriveHeaders_true hauth, hsess, hid,
      hprobe, ne_of_gt hpos]
  · intro body'
    simp [uploadProgressHandler, checkDriveHeaders_true hauth, hsess, hid,
      hprobe]

/-- C4: when an otherwise valid `_upload` request declares a size that,
added to the sizes of all stored items, exceeds the configured available
space, the handler answers 400 with the structured
`storageQuotaExceeded` body and changes nothing — so a second request whose
total fits (sent to the same, unchanged state) succeeds: it gets the
session `Location` URL, the store stays unchanged, and a fresh session with
`next_start = 0` and the declared size is created. -/
theorem quota_exceeded_check (s : GState) (r1 r2 : StartUploadRequest)
    (m1 m2 : Str) (n1 n2 : Int)
    (hauth1 : r1.authorization = "Bearer ".toList ++ s.auth_token)
    (hauth2 : r2.authorization = "Bearer ".toList ++ s.auth_token)
    (hu1 : r1.uploadType = some "resumable".toList)
    (hu2 : r2.uploadType = some "resumable".toList)
    (hm1 : r1.contentType = some m1)
    (hm2 : r2.contentType = some m2)
    (hn1 : r1.contentLength = some n1) (hpos1 : 0 ≤ n1)
    (hn2 : r2.contentLength = some n2) (hpos2 : 0 ≤ n2)
    (hwt : sizesWellTyped s.items = true)
    (hover : (s.items.map fun kv => itemSize kv.2).sum + n1 >
      s.space_available)
    (hfit : (s.items.map fun kv => itemSize kv.2).sum + n2 ≤
      s.space_available)
    (hnp : aGet r2.metadata "parents".toList = none) :
    uploadHandler s r1 = (.quotaExceeded, s) ∧
    (uploadHandler s r2).1 = .emptyOk (some ("http://localhost:".toList ++
      (toString s.port).toList ++ "/upload/drive/v3/files/progress/".toList ++
      r2.newId)) ∧
    (uploadHandler s r2).2.items = s.items ∧
    ∃ u2, (uploadHandler s r2).2.upload_info = some u2 ∧
      u2.id = r2.newId ∧ u2.size = n2 ∧ u2.next_start = 0 := by
  have hnp2 : aGet r2.metadata ['p', 'a', 'r', 'e', 'n', 't', 's'] = none :=
    hnp
  refine ⟨?_, ?_, ?_, ?_⟩
  · simp [uploadHandler, checkDriveHeaders_true hauth1, hu1, hm1, hn1,
      not_lt.mpr hpos1, hwt, hover]
  · simp [uploadHandler, checkDriveHeaders_true hauth2, hu2, hm2, hn2,
      not_lt.mpr hpos2, hwt, not_lt.mpr hfit, hnp2]
  · simp [uploadHandler, checkDriveHeaders_true hauth2, hu2, hm2, hn2,
      not_lt.mpr hpos2, hwt, not_lt.mpr hfit, hnp2]
  · refine ⟨⟨n2, m2,
      aSet (aSet (formatItem r2.metadata r2.newId s.now) "bytes".toList
        (JValue.bytesRef s.buffers.length)) "size".toList (JValue.int n2),
      r2.newId, 0⟩, ?_, rfl, rfl, rfl⟩
    simp [uploadHandler, checkDriveHeaders_true hauth2, hu2, hm2, hn2,
      not_lt.mpr hpos2, hwt, not_lt.mpr hfit, hnp2]

/-! ### String-shape lemmas for the query patterns -/

theorem stripNl_eq_self {s : Str} (h : s.getLast? ≠ some '\n') :
    stripNl s = s := if_neg h

/-- Shape facts for a parents query `'<pid>' in parents` built from a
newline-free id: it matches the parents pattern, does not match the
mimeType pattern, and the handler's slice recovers `pid`. -/
theorem parentsQuery_build (pid : Str) (hnl : noNl pid = true) :
    parentsQueryMatch ("'".toList ++ pid ++ "' in parents".toList) = true ∧
    mimeTypeQueryMatch ("'".toList ++ pid ++ "' in parents".toList) = false ∧
    strDropRight (("'".toList ++ pid ++ "' in parents".toList).drop 1) 12 =
      pid := by
  have hstrip : stripNl ("'".toList ++ pid ++ "' in parents".toList) =
      "'".toList ++ pid ++ "' in parents".toList := by
    apply stripNl_eq_self
    rw [List.append_assoc,
      List.getLast?_append_of_ne_nil _ (by
        intro hc
        exact absurd (congrArg List.length hc) (by simp)),
      List.getLast?_append_of_ne_nil _ (by decide)]
    decide
  have hdrop1 : ("'".toList ++ pid ++ "' in parents".toList).drop 1 =
      pid ++ "' in parents".toList := by
    rw [List.append_assoc]
    exact List.drop_left' rfl
  have hmid : strDropRight (pid ++ "' in parents".toList) 12 = pid := by
    unfold strDropRight
    rw [show (pid ++ "' in parents".toList).length - 12 = pid.length by
      simp]
    exact List.take_left pid _
  refine ⟨?_, ?_, ?_⟩
  · simp only [parentsQueryMatch, hstrip, Bool.and_eq_true]
    refine ⟨⟨⟨?_, ?_⟩, ?_⟩, ?_⟩
    · rw [List.isPrefixOf_iff_prefix, List.append_assoc]
      exact List.prefix_append _ _
    · rw [List.isSuffixOf_iff_suffix]
      exact ⟨"'".toList ++ pid, by simp⟩
    · rw [decide_eq_true_eq, List.length_append, List.length_append]
      have h1 : ("'".toList : Str).length = 1 := rfl
      have h2 : ("' in parents".toList : Str).length = 12 := rfl
      omega
    · rw [hdrop1, hmid]
      exact hnl
  · simp only [mimeTypeQueryMatch, hstrip]
    rw [Bool.eq_false_iff]
    intro hmatch
    simp only [Bool.and_eq_true] at hmatch
    obtain ⟨⟨⟨hpre, -⟩, -⟩, -⟩ := hmatch
    rw [List.isPrefixOf_iff_prefix] at hpre
    obtain ⟨v, hv⟩ := hpre
    have hh := congrArg (fun l => l.head?) hv
    simp at hh
  · rw [hdrop1]
    exact hmid

/-- Shape facts for a mimeType query `mimeType='<X>'` built from a
newline-free mime string: it matches the mimeType pattern and the handler's
slice recovers `X`. -/
theorem mimeTypeQuery_build (X : Str) (hnl : noNl X = true) :
    mimeTypeQueryMatch ("mimeType='".toList ++ X ++ "'".toList) = true ∧
    strDropRight (("mimeType='".toList ++ X ++ "'".toList).drop 10) 1 =
      X := by
  have hstrip : stripNl ("mimeType='".toList ++ X ++ "'".toList) =
      "mimeType='".toList ++ X ++ "'".toList := by
    apply stripNl_eq_self
    rw [List.append_assoc,
      List.getLast?_append_of_ne_nil _ (by
        intro hc
        exact absurd (congrArg List.length hc) (by simp)),
      List.getLast?_append_of_ne_nil _ (by decide)]
    decide
  have hdrop10 : ("mimeType='".toList ++ X ++ "'".toList).drop 10 =
      X ++ "'".toList := by
    rw [List.append_assoc]
    exact List.drop_left' rfl
  have hmid : strDropRight (X ++ "'".toList) 1 = X := by
    unfold strDropRight
    rw [show (X ++ "'".toList).length - 1 = X.length by simp]
    exact List.take_left X _
  constructor
  · simp only [mimeTypeQueryMatch, hstrip, Bool.and_eq_true]
    refine ⟨⟨⟨?_, ?_⟩, ?_⟩, ?_⟩
    · rw [List.isPrefixOf_iff_prefix, List.append_assoc]
      exact List.prefix_append _ _
    · rw [List.isSuffixOf_iff_suffix]
      exact ⟨"mimeType='".toList ++ X, by simp⟩
    · rw [decide_eq_true_eq, List.length_append, List.length_append]
      have h1 : ("mimeType='".toList : Str).length = 10 := rfl
      have h2 : ("'".toList : Str).length = 1 := rfl
      omega
    · rw [hdrop10, hmid]
      exact hnl
  · rw [hdrop10]
    exact hmid

/-- Witness for C8 at a concrete state and concrete requests whose
`Authorization` header is `"bad"`. -/
theorem auth_is_precondition_witness :
    getHandler exState exGetReq = (.unauthorized, exState) ∧
    updateHandler exState exUpdReq = (.unauthorized, exState) ∧
    deleteHandler exState exDelReq = (.unauthorized, exState) ∧
    queryHandler exState exQryReq = (.unauthorized, exState) ∧
    createHandler exState exCreReq = (.unauthorized, exState) ∧
    uploadHandler exState exStartReq = (.unauthorized, exState) ∧
    uploadProgressHandler exState exChunkReq = (.unauthorized, exState) :=
  auth_is_precondition exState exGetReq exUpdReq exDelReq exQryReq exCreReq
    exStartReq exChunkReq (by decide) (by decide) (by decide) (by decide)
    (by decide) (by decide) (by decide)

/-- Witness for C2: the wrong-start chunk is rejected and the state is
untouched. -/
theorem chunk_wrong_start_rejected_witness :
    uploadProgressHandler exSessState exWrongStartChunk =
      (.badRequest, exSessState) :=
  chunk_wrong_start_rejected exSessState exSessInfo exWrongStartChunk rfl rfl
    rfl (by decide) (by decide)

/-- C6 (amended): for an id on the permission-blocklist, `_get` and the
parents-query of `_query` return the structured 403 `forbidden` response
when the id exists in the store, but when the id is absent the existence
check fires first and both return 404 `NotFound` — the blocklist is only
consulted for ids present in the store.  Either way the state is
unchanged. -/
theorem blocklist_forbidden (s : GState) (id : Str)
    (rg : GetRequest) (rq : QueryRequest)
    (hauthg : rg.authorization = "Bearer ".toList ++ s.auth_token)
    (hauthq : rq.authorization = "Bearer ".toList ++ s.auth_token)
    (hidg : rg.id = id)
    (hq : rq.q = some ("'".toList ++ id ++ "' in parents".toList))
    (hnl : noNl id = true)
    (hbl : id ∈ s.lostPermission) :
    (aHas s.items id = true →
      getHandler s rg = (.forbidden, s) ∧
      queryHandler s rq = (.forbidden, s)) ∧
    (aHas s.items id = false →
      getHandler s rg = (.notFound, s) ∧
      queryHandler s rq = (.notFound, s)) := by
  obtain ⟨hpm, hmm, hextract⟩ := parentsQuery_build id hnl
  constructor
  · intro hhas
    constructor
    · simp [getHandler, checkDriveHeaders_true hauthg, hidg, hhas, hbl]
    · simp only [queryHandler, checkDriveHeaders_true hauthq, hq,
        Option.getD_some]
      rw [hmm, hpm, hextract]
      simp [hhas, hbl]
  · intro hhas
    constructor
    · simp [getHandler, checkDriveHeaders_true hauthg, hidg, hhas]
    · simp only [queryHandler, checkDriveHeaders_true hauthq, hq,
        Option.getD_some]
      rw [hmm, hpm, hextract]
      simp [hhas]

/-- Counterexample to C6 as stated: with the blocklisted id `B` absent from
the store, `_get` and the parents-query return `NotFound` (a plain 404),
not the 403 `forbidden` response the claim requires "regardless of whether
or not the id exists in the store". -/
theorem blocklist_forbidden_counterexample :
    "B".toList ∈ exBlockState.lostPermission ∧
    aHas exBlockState.items "B".toList = false ∧
    (getHandler exBlockState exBlockGetReq).1 = .notFound ∧
    (queryHandler exBlockState exBlockQryReq).1 = .notFound ∧
    GResponse.notFound ≠ GResponse.forbidden := by
  refine ⟨by decide, rfl, rfl, rfl, ?_⟩
  intro h
  exact GResponse.noConfusion h

/-- Witness for C6 (amended) in both regimes: `B` present → 403 forbidden,
`B` absent → 404. -/
theorem blocklist_forbidden_witness :
    ((aHas exBlockState2.items "B".toList = true →
      getHandler exBlockState2 exBlockGetReq = (.forbidden, exBlockState2) ∧
      queryHandler exBlockState2 exBlockQryReq = (.forbidden, exBlockState2)) ∧
     (aHas exBlockState2.items "B".toList = false →
      getHandler exBlockState2 exBlockGetReq = (.notFound, exBlockState2) ∧
      queryHandler exBlockState2 exBlockQryReq = (.notFound, exBlockState2))) ∧
    ((aHas exBlockState.items "B".toList = true →
      getHandler exBlockState exBlockGetReq = (.forbidden, exBlockState) ∧
      queryHandler exBlockState exBlockQryReq = (.forbidden, exBlockState)) ∧
     (aHas exBlockState.items "B".toList = false →
      getHandler exBlockState exBlockGetReq = (.notFound, exBlockState) ∧
      queryHandler exBlockState exBlockQryReq = (.notFound, exBlockState))) :=
  ⟨blocklist_forbidden exBlockState2 "B".toList exBlockGetReq exBlockQryReq
      rfl rfl rfl rfl (by decide) (by decide),
   blocklist_forbidden exBlockState "B".toList exBlockGetReq exBlockQryReq
      rfl rfl rfl rfl (by decide) (by decide)⟩

/-- C7 (amended): a query `mimeType='X'` (for newline-free `X`) succeeds
and returns exactly the stored items whose `mimeType`, read with
`item.get('mimeType', '')`, equals `X`, projected to the requested fields.
An item lacking a `mimeType` field is compared as the empty string, so it
is excluded for every nonempty `X` but included when `X` is empty. -/
theorem mime_query_filters (s : GState) (r : QueryRequest) (X : Str)
    (hauth : r.authorization = "Bearer ".toList ++ s.auth_token)
    (hq : r.q = some ("mimeType='".toList ++ X ++ "'".toList))
    (hnl : noNl X = true) :
    queryHandler s r = (.json (JValue.obj [("files".toList,
      JValue.arr ((s.items.filter fun kv => itemMimeMatches kv.2 X).map
        fun kv => JValue.obj (filter_fields kv.2
          (parseFields (r.fields.getD "id".toList)))))]), s) := by
  obtain ⟨hm, hex⟩ := mimeTypeQuery_build X hnl
  simp only [queryHandler, checkDriveHeaders_true hauth, hq, Option.getD_some]
  rw [hm, hex]
  simp

/-- Counterexample to C7 as stated: for `X = ''` the item lacking a
`mimeType` field is returned (because `item.get('mimeType', '')` compares
the default `''` equal to `X`), while the claim requires items lacking
`mimeType` to be excluded for every `X` including the empty string. -/
theorem mime_query_filters_counterexample :
    aGet [("id".toList, JValue.str "A".toList)] "mimeType".toList = none ∧
    (queryHandler exNoMimeState exEmptyMimeQry).1 =
      .json (JValue.obj [("files".toList,
        JValue.arr [JValue.obj [("id".toList, JValue.str "A".toList)]])]) ∧
    JValue.arr [JValue.obj [("id".toList, JValue.str "A".toList)]] ≠
      JValue.arr [] := by
  refine ⟨rfl, rfl, ?_⟩
  intro h
  injection h with h2
  exact List.noConfusion h2

theorem mime_query_filters_witness :
    queryHandler exMimeState exMimeQry = (.json (JValue.obj [("files".toList,
      JValue.arr ((exMimeState.items.filter fun kv =>
          itemMimeMatches kv.2 "text/plain".toList).map
        fun kv => JValue.obj (filter_fields kv.2
          (parseFields (exMimeQry.fields.getD "id".toList)))))]),
      exMimeState) :=
  mime_query_filters exMimeState exMimeQry "text/plain".toList rfl rfl
    (by decide)

/-- Witness for C5 at a fresh session (`next_start = 0`): 308 with the
`Range` header omitted, and the body is irrelevant. -/
theorem status_probe_behavior_witness :
    (exSessInfo.next_start = 0 →
      uploadProgressHandler exSessState exProbeChunk =
        (.resume none, exSessState)) ∧
    (0 < exSessInfo.next_start →
      uploadProgressHandler exSessState exProbeChunk =
        (.resume (some ("bytes=0-".toList ++
          (toString (exSessInfo.next_start - 1)).toList)), exSessState)) ∧
    (∀ body', uploadProgressHandler exSessState
        { exProbeChunk with body := body' } =
      uploadProgressHandler exSessState exProbeChunk) :=
  status_probe_behavior exSessState exSessInfo exProbeChunk rfl rfl rfl
    (by decide)

/-- Witness for C4: against the empty 100-byte store, a 101-byte upload is
quota-rejected without side effects and a subsequent 100-byte upload
succeeds. -/
theorem quota_exceeded_check_witness :
    uploadHandler exState exOverReq = (.quotaExceeded, exState) ∧
    (uploadHandler exState exFitReq).1 = .emptyOk (some
      ("http://localhost:".toList ++ (toString exState.port).toList ++
        "/upload/drive/v3/files/progress/".toList ++ exFitReq.newId)) ∧
    (uploadHandler exState exFitReq).2.items = exState.items ∧
    ∃ u2, (uploadHandler exState exFitReq).2.upload_info = some u2 ∧
      u2.id = exFitReq.newId ∧ u2.size = 100 ∧ u2.next_start = 0 :=
  quota_exceeded_check exState exOverReq exFitReq "text/plain".toList
    "text/plain".toList 101 100 rfl rfl rfl rfl rfl rfl rfl (by decide) rfl
    (by decide) rfl (by decide) (by decide) rfl

/-- `applyUpdate` never changes a key the patch body does not mention. -/
theorem applyUpdate_preserves {item body item2 : Dict} {k : Str}
    (h : applyUpdate item body = some item2)
    (hk : ∀ kv ∈ body, kv.1 ≠ k) :
    aGet item2 k = aGet item k := by
  induction body generalizing item with
  | nil =>
      simp only [applyUpdate, Option.some.injEq] at h
      rw [h]
  | cons kv rest ih =>
      obtain ⟨k1, v⟩ := kv
      have hk1 : k1 ≠ k := hk (k1, v) (by simp)
      have hkrest : ∀ kv ∈ rest, kv.1 ≠ k := fun kv hm => hk kv (by simp [hm])
      simp only [applyUpdate] at h
      split at h
      next o hobj =>
        split at h
        next kvs =>
          exact (ih h hkrest).trans (aGet_aSet_ne item k1 k _ hk1)
        next => exact absurd h (by simp)
      next hother =>
        exact (ih h hkrest).trans (aGet_aSet_ne item k1 k _ hk1)

/-- C9 (amended): `formatItem` stamps `modifiedTime` with the current
time, so `_create` and the session item built at `_upload` start carry the
request-time timestamp (upload completion commits the session item
unchanged, hence with the session-start timestamp); the `_update`
operation, however, does not set `modifiedTime`: a patch whose body does
not itself contain a `modifiedTime` key leaves the stored item's
`modifiedTime` exactly as it was. -/
theorem modifiedTime_behavior (s : GState) (rc : CreateRequest)
    (ru : UpdateRequest) (item2 : Dict)
    (hauthc : rc.authorization = "Bearer ".toList ++ s.auth_token)
    (hauthu : ru.authorization = "Bearer ".toList ++ s.auth_token)
    (hmem : aHas s.items ru.id = true)
    (happ : applyUpdate ((aGet s.items ru.id).getD []) ru.body = some item2)
    (hkeys : ∀ kv ∈ ru.body, kv.1 ≠ "modifiedTime".toList) :
    (∀ (base : Dict) (id : Str) (now : Nat),
      aGet (formatItem base id now) "modifiedTime".toList =
        some (JValue.str (timeToRfc3339String now))) ∧
    (∀ (base : Dict) (id : Str) (now : Nat) (ref : Nat) (sz : Int),
      aGet (aSet (aSet (formatItem base id now) "bytes".toList
          (JValue.bytesRef ref)) "size".toList (JValue.int sz))
        "modifiedTime".toList =
        some (JValue.str (timeToRfc3339String now))) ∧
    aGet ((aGet (createHandler s rc).2.items rc.newId).getD [])
        "modifiedTime".toList =
      some (JValue.str (timeToRfc3339String s.now)) ∧
    updateHandler s ru =
      (.emptyOk none, { s with items := aSet s.items ru.id item2 }) ∧
    aGet item2 "modifiedTime".toList =
      aGet ((aGet s.items ru.id).getD []) "modifiedTime".toList := by
  have hfmt : ∀ (base : Dict) (id : Str) (now : Nat),
      aGet (formatItem base id now) "modifiedTime".toList =
        some (JValue.str (timeToRfc3339String now)) := by
    intro base id now
    unfold formatItem
    exact aGet_aSet_self _ _ _
  refine ⟨hfmt, ?_, ?_, ?_, ?_⟩
  · intro base id now ref sz
    rw [aGet_aSet_ne _ _ _ _ (by decide), aGet_aSet_ne _ _ _ _ (by decide)]
    exact hfmt base id now
  · simp only [createHandler, checkDriveHeaders_true hauthc]
    simp [aGet_aSet_self]
    exact hfmt rc.body rc.newId s.now
  · simp [updateHandler, checkDriveHeaders_true hauthu, hmem, happ]
  · exact applyUpdate_preserves happ hkeys

/-- Counterexample to C9 as stated: an item created at time 0 and patched
(on field `name`) at time 5 still carries the creation timestamp: the
update operation does not set `modifiedTime`. -/
theorem modifiedTime_behavior_counterexample :
    (updateHandler exCreatedLater exUpdNameReq).1 = .emptyOk none ∧
    aGet ((aGet (updateHandler exCreatedLater exUpdNameReq).2.items
        "A".toList).getD []) "modifiedTime".toList =
      some (JValue.str (timeToRfc3339String 0)) ∧
    exCreatedLater.now = 5 ∧
    timeToRfc3339String 0 ≠ timeToRfc3339String 5 := by
  refine ⟨rfl, rfl, rfl, ?_⟩
  intro h
  exact absurd h (by decide)

/-- Witness for C9 (amended) on the concrete created-then-patched item. -/
theorem modifiedTime_behavior_witness :
    ((∀ (base : Dict) (id : Str) (now : Nat),
      aGet (formatItem base id now) "modifiedTime".toList =
        some (JValue.str (timeToRfc3339String now))) ∧
    (∀ (base : Dict) (id : Str) (now : Nat) (ref : Nat) (sz : Int),
      aGet (aSet (aSet (formatItem base id now) "bytes".toList
          (JValue.bytesRef ref)) "size".toList (JValue.int sz))
        "modifiedTime".toList =
        some (JValue.str (timeToRfc3339String now))) ∧
    aGet ((aGet (createHandler exCreatedLater
        { authorization := exAuth,
          body := [("name".toList, JValue.str "n".toList)],
          newId := "C".toList }).2.items "C".toList).getD [])
        "modifiedTime".toList =
      some (JValue.str (timeToRfc3339String exCreatedLater.now)) ∧
    updateHandler exCreatedLater exUpdNameReq =
      (.emptyOk none, { exCreatedLater with
        items := aSet exCreatedLater.items "A".toList
          (aSet (formatItem [("name".toList, JValue.str "n".toList)]
            "A".toList 0) "name".toList (JValue.str "m".toList)) }) ∧
    aGet (aSet (formatItem [("name".toList, JValue.str "n".toList)]
        "A".toList 0) "name".toList (JValue.str "m".toList))
        "modifiedTime".toList =
      aGet ((aGet exCreatedLater.items "A".toList).getD [])
        "modifiedTime".toList) :=
  modifiedTime_behavior exCreatedLater
    { authorization := exAuth,
      body := [("name".toList, JValue.str "n".toList)],
      newId := "C".toList }
    exUpdNameReq
    (aSet (formatItem [("name".toList, JValue.str "n".toList)] "A".toList 0)
      "name".toList (JValue.str "m".toList))
    rfl rfl rfl rfl (by decide)

/-! ### `parseFields` on wrapped field specs -/

theorem intercalate_cons_two (a : Str) (l : List Str) (hl : l ≠ []) :
    [','].intercalate (a :: l) = a ++ ',' :: [','].intercalate l := by
  cases l with
  | nil => exact absurd rfl hl
  | cons b t => simp [List.intercalate, List.intersperse_cons_cons]

theorem splitOn_sep_first (a rest : Str) (ha : ',' ∉ a) :
    (a ++ ',' :: rest).splitOn ',' = a :: rest.splitOn ',' := by
  rw [List.splitOn, List.splitOn]
  refine List.splitOnP_first _ a ?_ ',' (by simp) rest
  intro x hx
  simp only [beq_iff_eq]
  intro hxc
  exact ha (hxc ▸ hx)

theorem splitOn_no_sep (a : Str) (ha : ',' ∉ a) :
    a.splitOn ',' = [a] := by
  rw [List.splitOn]
  refine List.splitOnP_eq_single _ a ?_
  intro x hx
  simp only [beq_iff_eq]
  intro hxc
  exact ha (hxc ▸ hx)

/-- A field with no parenthesis is left alone by `fieldStrip`. -/
theorem fieldStrip_plain (f : Str) (hop : '(' ∉ f) (hcl : ')' ∉ f) :
    fieldStrip f = f := by
  unfold fieldStrip
  rw [if_neg, if_neg]
  · intro hsuf
    rw [List.isSuffixOf_iff_suffix] at hsuf
    exact hcl (hsuf.subset (by decide))
  · intro hpre
    rw [List.isPrefixOf_iff_prefix] at hpre
    exact hop (hpre.subset (by decide))

/-- The first field of a wrapped spec has its `files(` prefix stripped. -/
theorem fieldStrip_first (f : Str) :
    fieldStrip ("files(".toList ++ f) = f := by
  unfold fieldStrip
  rw [if_pos]
  · exact List.drop_left' rfl
  · rw [List.isPrefixOf_iff_prefix]
    exact List.prefix_append _ _

/-- The last field of a wrapped spec (carrying the trailing `)`) has the
`)` stripped, provided it contains no `(`. -/
theorem fieldStrip_last (f : Str) (hop : '(' ∉ f) :
    fieldStrip (f ++ ")".toList) = f := by
  unfold fieldStrip
  rw [if_neg, if_pos]
  · unfold strDropRight
    rw [show (f ++ ")".toList).length - 1 = f.length by simp]
    exact List.take_left f _
  · rw [List.isSuffixOf_iff_suffix]
    exact List.suffix_append _ _
  · intro hpre
    rw [List.isPrefixOf_iff_prefix] at hpre
    have hmem : '(' ∈ f ++ ")".toList := hpre.subset (by decide)
    rw [List.mem_append] at hmem
    rcases hmem with hmem | hmem
    · exact hop hmem
    · exact absurd hmem (by decide)

/-- Splitting `f1,...,fn)` on commas yields the fields with the `)` glued
to the last one. -/
theorem splitOn_decor (ms : List Str) (hne : ms ≠ [])
    (h : ∀ f ∈ ms, ',' ∉ f) :
    ([','].intercalate ms ++ ")".toList).splitOn ',' = decorLast ms := by
  induction ms with
  | nil => exact absurd rfl hne
  | cons a t ih =>
      cases t with
      | nil =>
          rw [show [','].intercalate [a] = a by simp [List.intercalate]]
          rw [splitOn_no_sep (a ++ ")".toList) ?hnc]
          · rfl
          case hnc =>
            rw [List.mem_append]
            rintro (hm | hm)
            · exact h a (by simp) hm
            · exact absurd hm (by decide)
      | cons b t2 =>
          rw [intercalate_cons_two a (b :: t2) (by simp)]
          rw [List.append_assoc, List.cons_append]
          rw [splitOn_sep_first a _ (h a (by simp))]
          rw [ih (by simp) (fun f hf => h f (by simp [hf]))]
          rfl

/-- `fieldStrip` maps `decorLast` back to the undecorated fields when no
field contains a parenthesis. -/
theorem map_fieldStrip_decorLast (ms : List Str)
    (h : ∀ f ∈ ms, '(' ∉ f ∧ ')' ∉ f) :
    (decorLast ms).map fieldStrip = ms := by
  induction ms with
  | nil => rfl
  | cons a t ih =>
      cases t with
      | nil =>
          simp only [decorLast, List.map]
          rw [fieldStrip_last a (h a (by simp)).1]
      | cons b t2 =>
          simp only [decorLast, List.map]
          rw [fieldStrip_plain a (h a (by simp)).1 (h a (by simp)).2]
          have := ih (fun f hf => h f (by simp [hf]))
          simp only [decorLast, List.map] at this
          rw [List.cons.injEq]
          exact ⟨rfl, this⟩

/-- C10 (amended): for a wrapped comma-joined spec of at least two fields,
none containing a comma or parenthesis, `parseFields` returns exactly the
field list (first comma-chunk loses the `files(` prefix, last one the `)`
suffix).  For a single wrapped field the `elif` keeps the trailing `)`:
see the counterexample. -/
theorem parseFields_wrapped (f1 f2 : Str) (fs : List Str)
    (h : ∀ f ∈ f1 :: f2 :: fs, ',' ∉ f ∧ '(' ∉ f ∧ ')' ∉ f) :
    parseFields ("files(".toList ++ [','].intercalate (f1 :: f2 :: fs) ++
      ")".toList) = f1 :: f2 :: fs := by
  have hsrc : "files(".toList ++ [','].intercalate (f1 :: f2 :: fs) ++
      ")".toList =
      ("files(".toList ++ f1) ++ ',' ::
        ([','].intercalate (f2 :: fs) ++ ")".toList) := by
    rw [intercalate_cons_two f1 (f2 :: fs) (by simp)]
    simp [List.append_assoc]
  rw [parseFields, hsrc]
  rw [splitOn_sep_first ("files(".toList ++ f1) _ ?hnc]
  case hnc =>
    rw [List.mem_append]
    rintro (hm | hm)
    · exact absurd hm (by decide)
    · exact (h f1 (by simp)).1 hm
  rw [splitOn_decor (f2 :: fs) (by simp)
    (fun f hf => (h f (by simp [hf])).1)]
  simp only [List.map]
  rw [fieldStrip_first f1]
  rw [map_fieldStrip_decorLast (f2 :: fs)
    (fun f hf => ⟨(h f (by simp [hf])).2.1, (h f (by simp [hf])).2.2⟩)]

/-- Counterexample to C10 as stated: for the single wrapped field
`files(id)` the `elif` in `parseFields` strips only the prefix, returning
`id)` instead of `id`. -/
theorem parseFields_wrapped_counterexample :
    parseFields "files(id)".toList = ["id)".toList] ∧
    ["id)".toList] ≠ ["id".toList] := by
  refine ⟨rfl, ?_⟩
  intro h
  exact absurd h (by decide)

/-- Witness for C10 (amended): `files(id,name,size)` parses to the three
fields. -/
theorem parseFields_wrapped_witness :
    parseFields ("files(".toList ++
      [','].intercalate ["id".toList, "name".toList, "size".toList] ++
      ")".toList) = ["id".toList, "name".toList, "size".toList] :=
  parseFields_wrapped "id".toList "name".toList ["size".toList] (by decide)

/-! ### Upload chunk-step lemmas -/

/-- A valid chunk at the session's current offset is accepted: if it ends
at `S-1` the session is committed (the item, carrying the shared buffer
reference, is inserted and the id returned); otherwise the buffer is
extended, `next_start` advances to `end+1` and a 308 reports the received
range. -/
theorem chunk_step_success (s : GState) (u : UploadInfo) (ref : Nat)
    (r : ChunkRequest) (pos endv S : Nat)
    (hrec : Receiving s u ref)
    (hauth : r.authorization = "Bearer ".toList ++ s.auth_token)
    (hid : u.id = r.id)
    (hsize : u.size = (S : Int))
    (hpos : u.next_start = (pos : Int))
    (hrange : bytesMatch r.contentRange = true)
    (hnums : rangeNumbers r.contentRange = (pos, endv, S))
    (hlen : r.body.length = endv + 1 - pos)
    (hple : pos ≤ endv + 1)
    (hcl : r.contentLength = (r.body.length : Int))
    (hendle : endv ≤ S - 1) (hSpos : 0 < S)
    (halign : endv = S - 1 ∨ r.body.length % (256 * 1024) = 0) :
    (endv = S - 1 →
      uploadProgressHandler s r =
        (.json (JValue.obj [("id".toList, JValue.str u.id)]),
         { s with buffers := bufExtend s.buffers ref r.body,
                  chunks := s.chunks ++ [r.body.length],
                  items := aSet s.items u.id u.item })) ∧
    (endv ≠ S - 1 →
      uploadProgressHandler s r =
        (.resume (some ("bytes=0-".toList ++ (toString endv).toList)),
         { s with buffers := bufExtend s.buffers ref r.body,
                  chunks := s.chunks ++ [r.body.length],
                  upload_info :=
                    some ({ u with next_start := (endv : Int) + 1 }) })) := by
  obtain ⟨hsess, hbytes, hreflt, hblen⟩ := hrec
  have hnp := bytesMatch_not_probe hrange
  have hdisj : (endv : Int) = (S : Int) - 1 ∨
      r.contentLength % (256 * 1024) = 0 := by
    rcases halign with h | h
    · left; omega
    · right; rw [hcl]; omega
  have hlen2 : (r.body.length : Int) = (endv : Int) - (pos : Int) + 1 := by
    omega
  have hnotgt : ¬ ((endv : Int) > (S : Int) - 1) := by omega
  have hblen2 : ((bufGet (bufExtend s.buffers ref r.body) ref).length : Int) =
      (endv : Int) + 1 := by
    rw [bufGet_extend_self s.buffers ref r.body hreflt]
    rw [List.length_append]
    have hb : (bufGet s.buffers ref).length = pos := by omega
    omega
  constructor
  · intro hfin
    have hfin2 : (endv : Int) = (S : Int) - 1 := by omega
    simp only [uploadProgressHandler, checkDriveHeaders_true hauth, hsess,
      hnp, hrange, hnums, hid, hsize, hpos, hbytes, hcl, hdisj, hlen2,
      hnotgt, hblen2, hfin2]
    simp
  · intro hfin
    have hfin2 : ¬ ((endv : Int) = (S : Int) - 1) := by omega
    have hdvd : (262144 : Int) ∣ (endv : Int) - (pos : Int) + 1 := by
      rcases halign with h | h
      · exact absurd h hfin
      · have hq := Nat.dvd_of_mod_eq_zero h
        rw [← hlen2]
        exact_mod_cast hq
    simp only [uploadProgressHandler, checkDriveHeaders_true hauth, hsess,
      hnp, hrange, hnums, hid, hsize, hpos, hbytes, hcl, hdisj, hlen2,
      hnotgt, hblen2, hfin2]
    simp [hdvd]

/-- A successful `_upload` leaves a session in the receiving phase: a fresh
empty buffer, `next_start = 0`, the declared size. -/
theorem uploadHandler_starts_receiving (s : GState)
    (r : StartUploadRequest) (m : Str) (n : Int)
    (hauth : r.authorization = "Bearer ".toList ++ s.auth_token)
    (hu : r.uploadType = some "resumable".toList)
    (hm : r.contentType = some m)
    (hn : r.contentLength = some n) (hpos : 0 ≤ n)
    (hwt : sizesWellTyped s.items = true)
    (hfit : (s.items.map fun kv => itemSize kv.2).sum + n ≤
      s.space_available)
    (hnp : aGet r.metadata "parents".toList = none) :
    (uploadHandler s r).2.auth_token = s.auth_token ∧
    ∃ u0, (uploadHandler s r).2.upload_info = some u0 ∧
      u0.next_start = 0 ∧ u0.size = n ∧ u0.id = r.newId ∧
      Receiving (uploadHandler s r).2 u0 s.buffers.length ∧
      bufGet (uploadHandler s r).2.buffers s.buffers.length = [] := by
  have hnp2 : aGet r.metadata ['p', 'a', 'r', 'e', 'n', 't', 's'] = none :=
    hnp
  have hres : uploadHandler s r = (.emptyOk (some ("http://localhost:".toList
      ++ (toString s.port).toList ++
      "/upload/drive/v3/files/progress/".toList ++ r.newId)),
      { s with
          upload_info := some
            { size := n, mime := m,
              item := aSet (aSet (formatItem r.metadata r.newId s.now)
                "bytes".toList (JValue.bytesRef s.buffers.length))
                "size".toList (JValue.int n),
              id := r.newId, next_start := 0 },
          buffers := s.buffers ++ [[]] }) := by
    simp [uploadHandler, checkDriveHeaders_true hauth, hu, hm, hn,
      not_lt.mpr hpos, hwt, not_lt.mpr hfit, hnp2]
  rw [hres]
  have hempty : bufGet (s.buffers ++ [[]]) s.buffers.length = [] := by
    simp [bufGet, List.getD_eq_getElem?_getD, List.getElem?_concat_length]
  refine ⟨rfl, _, rfl, rfl, rfl, rfl, ⟨rfl, ?_, ?_, ?_⟩, hempty⟩
  · rw [aGet_aSet_ne _ _ _ _ (by decide)]
    exact aGet_aSet_self _ _ _
  · simp
  · rw [hempty]
    rfl

/-- When the session's buffer length no longer matches `next_start` (as
after a commit, which leaves `next_start` stale), no chunk request can
insert an item or advance the session: the store and the session record
are untouched and no request is answered with a JSON body.  (The buffer
itself can still be extended before the rejection: see the C3
counterexample.) -/
theorem uploadProgress_no_commit (sx : GState) (ux : UploadInfo)
    (refx : Nat) (rx : ChunkRequest)
    (hsess : sx.upload_info = some ux)
    (hbytes : aGet ux.item "bytes".toList = some (JValue.bytesRef refx))
    (hlt : refx < sx.buffers.length)
    (hmismatch : ((bufGet sx.buffers refx).length : Int) ≠ ux.next_start) :
    (uploadProgressHandler sx rx).2.items = sx.items ∧
    (uploadProgressHandler sx rx).2.upload_info = sx.upload_info ∧
    ∀ b, (uploadProgressHandler sx rx).1 ≠ GResponse.json b := by
  rcases hp : rangeNumbers rx.contentRange with ⟨pos2, endv2, S2⟩
  by_cases h1 : checkDriveHeaders sx rx.authorization = true
  case neg =>
    have heq : uploadProgressHandler sx rx = (.unauthorized, sx) := by
      simp [uploadProgressHandler, h1]
    rw [heq]
    exact ⟨rfl, rfl, by simp⟩
  by_cases h2 : ux.id = rx.id
  case neg =>
    have heq : uploadProgressHandler sx rx = (.badRequest, sx) := by
      simp [uploadProgressHandler, h1, hsess, h2]
    rw [heq]
    exact ⟨rfl, rfl, by simp⟩
  by_cases h3 : resumeBytesMatch rx.contentRange = true
  case pos =>
    have heq : uploadProgressHandler sx rx = (.resume
        (if ux.next_start ≠ 0 then
          some ("bytes=0-".toList ++ (toString (ux.next_start - 1)).toList)
         else none), sx) := by
      simp [uploadProgressHandler, h1, hsess, h2, h3]
    rw [heq]
    exact ⟨rfl, rfl, by simp⟩
  by_cases h4 : bytesMatch rx.contentRange = true
  case neg =>
    have heq : uploadProgressHandler sx rx = (.badRequest, sx) := by
      simp [uploadProgressHandler, h1, hsess, h2, h3, h4]
    rw [heq]
    exact ⟨rfl, rfl, by simp⟩
  by_cases h5 : ((S2 : Int) = ux.size)
  case neg =>
    have heq : uploadProgressHandler sx rx = (.badRequest, sx) := by
      simp [uploadProgressHandler, h1, hsess, h2, h3, h4, hp, h5]
    rw [heq]
    exact ⟨rfl, rfl, by simp⟩
  have h5s : ux.size = (S2 : Int) := h5.symm
  by_cases h6 : ((pos2 : Int) = ux.next_start)
  case neg =>
    have heq : uploadProgressHandler sx rx = (.badRequest, sx) := by
      simp [uploadProgressHandler, h1, hsess, h2, h3, h4, hp, h5s, h6]
    rw [heq]
    exact ⟨rfl, rfl, by simp⟩
  have h6s : ux.next_start = (pos2 : Int) := h6.symm
  by_cases h7 : (((endv2 : Int) = (S2 : Int) - 1) ∨
      rx.contentLength % (256 * 1024) = 0)
  case neg =>
    rw [not_or] at h7
    obtain ⟨h7a, h7b⟩ := h7
    have heq : uploadProgressHandler sx rx = (.badRequest, sx) := by
      simp [uploadProgressHandler, h1, hsess, h2, h3, h4, hp, h5s, h6s]
      intro hi1 hi2 hi3 hi4
      exact absurd (Int.emod_eq_zero_of_dvd (hi1 h7a)) h7b
    rw [heq]
    exact ⟨rfl, rfl, by simp⟩
  by_cases h8 : ((endv2 : Int) > (S2 : Int) - 1)
  case pos =>
    have heq : uploadProgressHandler sx rx = (.badRequest, sx) := by
      simp [uploadProgressHandler, h1, hsess, h2, h3, h4, hp, h5s, h6s, h7,
        h8]
    rw [heq]
    exact ⟨rfl, rfl, by simp⟩
  by_cases h9 : ((rx.body.length : Int) = rx.contentLength)
  case neg =>
    have heq : uploadProgressHandler sx rx = (.badRequest, sx) := by
      simp [uploadProgressHandler, h1, hsess, h2, h3, h4, hp, h5s, h6s, h7,
        h8, h9]
    rw [heq]
    exact ⟨rfl, rfl, by simp⟩
  by_cases h10 : ((rx.body.length : Int) = (endv2 : Int) - (pos2 : Int) + 1)
  case neg =>
    have heq : uploadProgressHandler sx rx = (.badRequest, sx) := by
      simp [uploadProgressHandler, h1, hsess, h2, h3, h4, hp, h5s, h6s, h7,
        h8, h9]
      intro hi1 hi2
      exact absurd (h9.trans hi2) h10
    rw [heq]
    exact ⟨rfl, rfl, by simp⟩
  have h11 : ((bufGet (bufExtend sx.buffers refx rx.body) refx).length :
      Int) ≠ (endv2 : Int) + 1 := by
    rw [bufGet_extend_self _ _ _ hlt, List.length_append]
    push_cast
    intro hc
    exact hmismatch (by omega)
  have hc1 : ¬(¬((endv2 : Int) = (S2 : Int) - 1) ∧
      ¬((262144 : Int) ∣ rx.contentLength)) := by
    rcases h7 with h | h
    · exact fun hand => hand.1 h
    · exact fun hand => hand.2 (Int.dvd_of_emod_eq_zero h)
  have hc2 : rx.contentLength = (endv2 : Int) - (pos2 : Int) + 1 :=
    h9.symm.trans h10
  rw [hc2] at hc1
  have hbytes2 : aGet ux.item ['b', 'y', 't', 'e', 's'] =
      some (JValue.bytesRef refx) := hbytes
  have heq : uploadProgressHandler sx rx = (.badRequest,
      { sx with buffers := bufExtend sx.buffers refx rx.body }) := by
    simp [uploadProgressHandler, h1, hsess, h2, h3, h4, hp, h5s, h6s,
      h8, h9, hc1, hc2, hbytes2, h11]
  rw [heq]
  exact ⟨rfl, rfl, by simp⟩

/-- A strictly sequential chunk delivery drives a receiving session to
commit: every chunk is answered with a 308 range report except the last,
which commits the item and returns its id; afterwards the session's buffer
holds exactly `S` bytes and the item (sharing that buffer) is in the
store. -/
theorem runChunks_seq (S : Nat) (rs : List ChunkRequest) (s : GState)
    (u : UploadInfo) (ref : Nat) (pos : Nat)
    (hrec : Receiving s u ref)
    (hsize : u.size = (S : Int))
    (hpos : u.next_start = (pos : Int))
    (hS : 0 < S)
    (hne : rs ≠ [])
    (hseq : SeqChunks ("Bearer ".toList ++ s.auth_token) u.id S pos rs) :
    ∃ rpre s',
      runChunks s rs =
        (rpre ++ [.json (JValue.obj [("id".toList, JValue.str u.id)])],
         s') ∧
      (∀ x ∈ rpre, ∃ e : Nat,
        x = .resume (some ("bytes=0-".toList ++ (toString e).toList))) ∧
      aGet s'.items u.id = some u.item ∧
      (bufGet s'.buffers ref).length = S ∧
      aGet u.item "bytes".toList = some (JValue.bytesRef ref) ∧
      s'.auth_token = s.auth_token := by
  induction rs generalizing s u pos with
  | nil => exact absurd rfl hne
  | cons r rest ih =>
      simp only [SeqChunks] at hseq
      obtain ⟨hauth, hid, hbm, endv, hnums, hlen, hple, hcl, hfin, hnonfin,
        hrest⟩ := hseq
      obtain ⟨hsess, hbytes, hlt, hblen⟩ := hrec
      cases rest with
      | nil =>
          have hend : endv = S - 1 := hfin rfl
          have hcommit := (chunk_step_success s u ref r pos endv S
            ⟨hsess, hbytes, hlt, hblen⟩ hauth hid.symm hsize hpos hbm hnums
            hlen hple hcl (le_of_eq hend) hS (Or.inl hend)).1 hend
          have hbuf : (bufGet s.buffers ref).length = pos := by
            rw [hpos] at hblen
            exact_mod_cast hblen
          refine ⟨[],
            { s with
                buffers := bufExtend s.buffers ref r.body,
                chunks := s.chunks ++ [r.body.length],
                items := aSet s.items u.id u.item },
            ?_, ?_, ?_, ?_, hbytes, rfl⟩
          · simp [runChunks, hcommit]
          · intro x hx
            exact absurd hx (List.not_mem_nil x)
          · exact aGet_aSet_self _ _ _
          · show (bufGet (bufExtend s.buffers ref r.body) ref).length = S
            rw [bufGet_extend_self _ _ _ hlt, List.length_append, hbuf, hlen]
            omega
      | cons r2 rest2 =>
          have hnf := hnonfin (by simp)
          have hend : endv ≠ S - 1 := by omega
          have hadv := (chunk_step_success s u ref r pos endv S
            ⟨hsess, hbytes, hlt, hblen⟩ hauth hid.symm hsize hpos hbm hnums
            hlen hple hcl (by omega) hS (Or.inr hnf.2)).2 hend
          have hbuf : (bufGet s.buffers ref).length = pos := by
            rw [hpos] at hblen
            exact_mod_cast hblen
          have hrec2 : Receiving
              ({ s with
                  buffers := bufExtend s.buffers ref r.body,
                  chunks := s.chunks ++ [r.body.length],
                  upload_info :=
                    some ({ u with next_start := (endv : Int) + 1 }) })
              ({ u with next_start := (endv : Int) + 1 }) ref := by
            refine ⟨rfl, hbytes, ?_, ?_⟩
            · simpa [bufExtend] using hlt
            · show ((bufGet (bufExtend s.buffers ref r.body) ref).length :
                  Int) = (endv : Int) + 1
              rw [bufGet_extend_self _ _ _ hlt, List.length_append, hbuf,
                hlen]
              push_cast
              omega
          obtain ⟨rpre2, s3, hrun2, hres2, hitems2, hbuf2, hbytes2, hauth2⟩ :=
            ih _ _ (endv + 1) hrec2 hsize (by push_cast; ring) (by simp)
              hrest
          refine ⟨.resume (some ("bytes=0-".toList ++
              (toString endv).toList)) :: rpre2, s3, ?_, ?_, hitems2, hbuf2,
            hbytes, hauth2⟩
          · rw [show runChunks s (r :: r2 :: rest2) =
                ((uploadProgressHandler s r).1 ::
                  (runChunks (uploadProgressHandler s r).2 (r2 :: rest2)).1,
                 (runChunks (uploadProgressHandler s r).2
                   (r2 :: rest2)).2) from rfl, hadv]
            rw [hrun2]
            simp
          · intro x hx
            rcases List.mem_cons.mp hx with h | h
            · exact ⟨endv, h⟩
            · exact hres2 x h

/-- C3 (amended): (a) a successful `_upload` establishes the session
invariant `next_start = 0 =` buffer length; (b) under the invariant, a
valid sequential chunk is consumed exactly as the claim says: it commits
(inserting the session item into the store) precisely when its end offset
is `size - 1`, and otherwise advances `next_start` to `end + 1`,
re-establishing the invariant — so `next_start` equals the buffer length
throughout the receiving phase and the commit happens exactly once; (c)
the session bookkeeping is not cleared on commit, which leaves `next_start`
stale (≠ buffer length): in that situation no chunk request can produce a
JSON (commit) response or touch the store or the session record — but the
shared buffer can still be extended before rejection, which is what the
counterexample exhibits on the committed item. -/
theorem session_lifecycle
    (s0 : GState) (r0 : StartUploadRequest) (m0 : Str) (n0 : Int)
    (s : GState) (u : UploadInfo) (ref : Nat) (r : ChunkRequest)
    (pos endv S : Nat)
    (sx : GState) (ux : UploadInfo) (refx : Nat) (rx : ChunkRequest)
    (ha1 : r0.authorization = "Bearer ".toList ++ s0.auth_token)
    (ha2 : r0.uploadType = some "resumable".toList)
    (ha3 : r0.contentType = some m0)
    (ha4 : r0.contentLength = some n0) (ha5 : 0 ≤ n0)
    (ha6 : sizesWellTyped s0.items = true)
    (ha7 : (s0.items.map fun kv => itemSize kv.2).sum + n0 ≤
      s0.space_available)
    (ha8 : aGet r0.metadata "parents".toList = none)
    (hb1 : Receiving s u ref)
    (hb2 : r.authorization = "Bearer ".toList ++ s.auth_token)
    (hb3 : u.id = r.id) (hb4 : u.size = (S : Int))
    (hb5 : u.next_start = (pos : Int))
    (hb6 : bytesMatch r.contentRange = true)
    (hb7 : rangeNumbers r.contentRange = (pos, endv, S))
    (hb8 : r.body.length = endv + 1 - pos) (hb9 : pos ≤ endv + 1)
    (hb10 : r.contentLength = (r.body.length : Int))
    (hb11 : endv ≤ S - 1) (hb12 : 0 < S)
    (hb13 : endv = S - 1 ∨ r.body.length % (256 * 1024) = 0)
    (hc1 : sx.upload_info = some ux)
    (hc2 : aGet ux.item "bytes".toList = some (JValue.bytesRef refx))
    (hc3 : refx < sx.buffers.length)
    (hc4 : ((bufGet sx.buffers refx).length : Int) ≠ ux.next_start) :
    (∃ u0, (uploadHandler s0 r0).2.upload_info = some u0 ∧
      u0.next_start = 0 ∧
      Receiving (uploadHandler s0 r0).2 u0 s0.buffers.length ∧
      bufGet (uploadHandler s0 r0).2.buffers s0.buffers.length = []) ∧
    (endv = S - 1 →
      uploadProgressHandler s r =
        (.json (JValue.obj [("id".toList, JValue.str u.id)]),
         { s with buffers := bufExtend s.buffers ref r.body,
                  chunks := s.chunks ++ [r.body.length],
                  items := aSet s.items u.id u.item })) ∧
    (endv ≠ S - 1 →
      uploadProgressHandler s r =
        (.resume (some ("bytes=0-".toList ++ (toString endv).toList)),
         { s with buffers := bufExtend s.buffers ref r.body,
                  chunks := s.chunks ++ [r.body.length],
                  upload_info :=
                    some ({ u with next_start := (endv : Int) + 1 }) }) ∧
      Receiving (uploadProgressHandler s r).2
        ({ u with next_start := (endv : Int) + 1 }) ref) ∧
    ((uploadProgressHandler sx rx).2.items = sx.items ∧
     (uploadProgressHandler sx rx).2.upload_info = sx.upload_info ∧
     ∀ b, (uploadProgressHandler sx rx).1 ≠ GResponse.json b) := by
  obtain ⟨hcommit, hadvance⟩ := chunk_step_success s u ref r pos endv S hb1
    hb2 hb3 hb4 hb5 hb6 hb7 hb8 hb9 hb10 hb11 hb12 hb13
  refine ⟨?_, hcommit, ?_,
    uploadProgress_no_commit sx ux refx rx hc1 hc2 hc3 hc4⟩
  · obtain ⟨-, u0, hinfo, hns, hsz, hid0, hrecv, hempty⟩ :=
      uploadHandler_starts_receiving s0 r0 m0 n0 ha1 ha2 ha3 ha4 ha5 ha6
        ha7 ha8
    exact ⟨u0, hinfo, hns, hrecv, hempty⟩
  · intro hne
    have hadv := hadvance hne
    obtain ⟨hsess, hbytes, hlt, hlen⟩ := hb1
    refine ⟨hadv, ?_⟩
    rw [hadv]
    refine ⟨rfl, hbytes, ?_, ?_⟩
    · simpa [bufExtend] using hlt
    · rw [bufGet_extend_self _ _ _ hlt, List.length_append]
      push_cast
      rw [hb5] at hlen
      omega

/-- Counterexample to C3 as stated: after the one-byte upload commits, the
stale session still accepts the replayed final chunk far enough to extend
the shared buffer: the request fails with `BadRequest`, yet the committed
item's byte buffer has grown from `[7]` to `[7, 9]` — a further
`uploadChunk` addressed to the consumed session id did mutate the
committed item's bytes (and `next_start = 0` no longer equals the buffer
length 1). -/
theorem session_lifecycle_counterexample :
    aGet exCommitState.items "XYZ".toList = some exSessInfo.item ∧
    exSessInfo.size = 1 ∧
    storedBytes exCommitState "XYZ".toList = [7] ∧
    exCommitState.upload_info = some exSessInfo ∧
    exSessInfo.next_start = 0 ∧
    (uploadProgressHandler exCommitState exReplayChunk).1 = .badRequest ∧
    storedBytes (uploadProgressHandler exCommitState exReplayChunk).2
      "XYZ".toList = [7, 9] ∧
    ([7, 9] : List Nat) ≠ [7] := by
  refine ⟨rfl, rfl, rfl, rfl, rfl, rfl, rfl, ?_⟩
  simp

/-- Witness for C3 (amended) on the concrete one-byte upload: session
start, the committing chunk, and a replay against the stale session. -/
theorem session_lifecycle_witness :
    ((∃ u0, (uploadHandler exState exStartOk).2.upload_info = some u0 ∧
      u0.next_start = 0 ∧
      Receiving (uploadHandler exState exStartOk).2 u0
        exState.buffers.length ∧
      bufGet (uploadHandler exState exStartOk).2.buffers
        exState.buffers.length = []) ∧
    ((0 : Nat) = 1 - 1 →
      uploadProgressHandler exSessState exFinalChunk =
        (.json (JValue.obj [("id".toList, JValue.str exSessInfo.id)]),
         { exSessState with
             buffers := bufExtend exSessState.buffers 0 exFinalChunk.body,
             chunks := exSessState.chunks ++ [exFinalChunk.body.length],
             items := aSet exSessState.items exSessInfo.id
               exSessInfo.item })) ∧
    ((0 : Nat) ≠ 1 - 1 →
      uploadProgressHandler exSessState exFinalChunk =
        (.resume (some ("bytes=0-".toList ++ (toString (0 : Nat)).toList)),
         { exSessState with
             buffers := bufExtend exSessState.buffers 0 exFinalChunk.body,
             chunks := exSessState.chunks ++ [exFinalChunk.body.length],
             upload_info :=
               some ({ exSessInfo with next_start := ((0 : Nat) : Int) + 1 }) }) ∧
      Receiving (uploadProgressHandler exSessState exFinalChunk).2
        ({ exSessInfo with next_start := ((0 : Nat) : Int) + 1 }) 0) ∧
    ((uploadProgressHandler exCommitState exReplayChunk).2.items =
      exCommitState.items ∧
     (uploadProgressHandler exCommitState exReplayChunk).2.upload_info =
      exCommitState.upload_info ∧
     ∀ b, (uploadProgressHandler exCommitState exReplayChunk).1 ≠
      GResponse.json b)) :=
  session_lifecycle exState exStartOk "text/plain".toList 1
    exSessState exSessInfo 0 exFinalChunk 0 0 1
    exCommitState exSessInfo 0 exReplayChunk
    rfl rfl rfl rfl (by decide) rfl (by decide) rfl
    ⟨rfl, rfl, by decide, rfl⟩ rfl rfl rfl rfl (by decide) (by decide)
    rfl (by decide) rfl (by decide) (by decide)
    (Or.inl rfl)
    rfl rfl (by decide) (by decide)

/-- C1 (amended): starting a session with declared size `S > 0` and
delivering chunks strictly sequentially — each addressed to the session
with `start` equal to the current `next_start`, body length
`end - start + 1` matching `Content-Length`, every non-final chunk
256 KiB-aligned and ending strictly before `S - 1`, and the final chunk
ending at `S - 1` — makes every chunk request succeed (a 308 range report
for each non-final chunk, the id-bearing JSON response for the final one)
and commits an item into the store whose byte buffer has length exactly
`S`.  (Without the strictly-before-`S-1` restriction on non-final chunks
the claim fails: see the counterexample, where an aligned non-final chunk
ending at `S-1` commits early and the final chunk is then rejected.) -/
theorem upload_chunk_sequence (s0 : GState) (r0 : StartUploadRequest)
    (m0 : Str) (S : Nat) (rs : List ChunkRequest)
    (ha1 : r0.authorization = "Bearer ".toList ++ s0.auth_token)
    (ha2 : r0.uploadType = some "resumable".toList)
    (ha3 : r0.contentType = some m0)
    (ha4 : r0.contentLength = some (S : Int))
    (ha6 : sizesWellTyped s0.items = true)
    (ha7 : (s0.items.map fun kv => itemSize kv.2).sum + (S : Int) ≤
      s0.space_available)
    (ha8 : aGet r0.metadata "parents".toList = none)
    (hS : 0 < S) (hne : rs ≠ [])
    (hseq : SeqChunks ("Bearer ".toList ++ s0.auth_token) r0.newId S 0 rs) :
    ∃ rpre s',
      runChunks (uploadHandler s0 r0).2 rs =
        (rpre ++ [.json (JValue.obj [("id".toList,
          JValue.str r0.newId)])], s') ∧
      (∀ x ∈ rpre, ∃ e : Nat,
        x = .resume (some ("bytes=0-".toList ++ (toString e).toList))) ∧
      aHas s'.items r0.newId = true ∧
      (storedBytes s' r0.newId).length = S := by
  obtain ⟨hatok, u0, hinfo, hns, hsz, hid0, hrecv, hempty⟩ :=
    uploadHandler_starts_receiving s0 r0 m0 (S : Int) ha1 ha2 ha3 ha4
      (by exact_mod_cast Nat.zero_le S) ha6 ha7 ha8
  obtain ⟨rpre, s', hrun, hres, hitems, hbuf, hbytes, hauth2⟩ :=
    runChunks_seq S rs (uploadHandler s0 r0).2 u0 s0.buffers.length 0
      hrecv hsz (by exact_mod_cast hns) hS hne
      (by rw [hatok, hid0]; exact hseq)
  refine ⟨rpre, s', ?_, hres, ?_, ?_⟩
  · rw [← hid0]
    exact hrun
  · rw [← hid0]
    simp [aHas, hitems]
  · rw [← hid0]
    simp only [storedBytes, hitems, Option.getD_some, hbytes]
    exact hbuf

/-- Counterexample to C1 as stated: for `S = 262144` the sequence of two
identical chunks `bytes 0-262143/262144` satisfies every hypothesis of the
claim as written — the first chunk is non-final and 256 KiB-aligned, the
final chunk ends at `S-1`, and each chunk's start equals the session's
current `next_start` (which is still 0 after the first chunk commits,
since committing does not advance it) — yet the final chunk request does
not succeed: the claim needs non-final chunks to stop strictly before
`S-1`. -/
theorem upload_chunk_sequence_counterexample :
    exSess256Info.size = 262144 ∧
    exSess256Info.next_start = 0 ∧
    rangeNumbers exChunk256.contentRange = (0, 262143, 262144) ∧
    exChunk256.body.length % (256 * 1024) = 0 ∧
    exChunk256.body.length = 262144 ∧
    (uploadProgressHandler exSess256 exChunk256).1 =
      .json (JValue.obj [("id".toList, JValue.str "XYZ".toList)]) ∧
    ((uploadProgressHandler exSess256 exChunk256).2.upload_info.map
      (fun v => v.next_start)) = some 0 ∧
    ∀ b, (uploadProgressHandler
        (uploadProgressHandler exSess256 exChunk256).2 exChunk256).1 ≠
      .json b := by
  have hrec : Receiving exSess256 exSess256Info 0 :=
    ⟨rfl, rfl, by decide, rfl⟩
  have hlen256 : exChunk256.body.length = 262143 + 1 - 0 := by
    show (List.replicate 262144 (0 : Nat)).length = 262143 + 1 - 0
    rw [List.length_replicate]
  have hcl256 : exChunk256.contentLength = (exChunk256.body.length : Int) := by
    show (262144 : Int) = ((List.replicate 262144 (0 : Nat)).length : Int)
    rw [List.length_replicate]
    rfl
  have hstep := (chunk_step_success exSess256 exSess256Info 0 exChunk256
      0 262143 262144 hrec rfl rfl rfl rfl (by decide) (by decide) hlen256
      (by decide) hcl256 (by decide) (by decide) (Or.inl rfl)).1 rfl
  refine ⟨rfl, rfl, by decide, ?_, ?_, ?_, ?_, ?_⟩
  · rw [show exChunk256.body = List.replicate 262144 (0 : Nat) from rfl,
      List.length_replicate]
  · rw [show exChunk256.body = List.replicate 262144 (0 : Nat) from rfl,
      List.length_replicate]
  · rw [hstep]
    rfl
  · rw [hstep]
    rfl
  · rw [hstep]
    refine (uploadProgress_no_commit _ exSess256Info 0 exChunk256
      rfl rfl ?_ ?_).2.2
    · show 0 < (bufExtend exSess256.buffers 0 exChunk256.body).length
      rw [length_bufExtend]
      decide
    · show ((bufGet (bufExtend exSess256.buffers 0 exChunk256.body)
        0).length : Int) ≠ exSess256Info.next_start
      rw [bufGet_extend_self _ _ _ (by decide), List.length_append,
        show exChunk256.body = List.replicate 262144 (0 : Nat) from rfl,
        List.length_replicate]
      decide

/-- Witness for C1 (amended): the one-byte upload delivered as its single
final chunk. -/
theorem upload_chunk_sequence_witness :
    ∃ rpre s',
      runChunks (uploadHandler exState exStartOk).2 [exFinalChunk] =
        (rpre ++ [.json (JValue.obj [("id".toList,
          JValue.str exStartOk.newId)])], s') ∧
      (∀ x ∈ rpre, ∃ e : Nat,
        x = .resume (some ("bytes=0-".toList ++ (toString e).toList))) ∧
      aHas s'.items exStartOk.newId = true ∧
      (storedBytes s' exStartOk.newId).length = 1 :=
  upload_chunk_sequence exState exStartOk "text/plain".toList 1
    [exFinalChunk] rfl rfl rfl rfl rfl (by decide) rfl (by decide)
    (List.cons_ne_nil _ _)
    ⟨rfl, rfl, by decide, 0, by decide, rfl, by decide, rfl,
      fun _ => rfl, fun h => absurd rfl h, rfl⟩

end SimGoogle
